import Mathlib

/-!
Verification development for the schema reflection and composition engine of
flask-restless-datamodel.  The Python source (render.py and datamodel.py) is
shallowly embedded here: Python dicts become association lists over String
keys (first-match lookup, insertion-order preserving assignment), fallible
code returns Except, and the dynamic values that flow into JSON documents are
modelled by the inductive PyVal.
-/

/-- First-match lookup in an association list, i.e. Python `d[k]` /
`d.get(k)` restricted to the keys actually present. -/
def dictLookup {α : Type} : List (String × α) → String → Option α
  | [], _ => Option.none
  | p :: rest, k => if p.1 = k then some p.2 else dictLookup rest k

/-- Python `d[k] = v`: replace the value in place when the key is present
(dicts built here never repeat a key), otherwise append the new binding at
the end (insertion order). -/
def dictInsert {α : Type} : List (String × α) → String → α → List (String × α)
  | [], k, v => [(k, v)]
  | p :: rest, k, v => if p.1 = k then (k, v) :: rest else p :: dictInsert rest k v

/-- Python `d.update(e)`: assign each binding of `e` into `d` in order. -/
def dictUpdate {α : Type} (d : List (String × α)) : List (String × α) → List (String × α)
  | [] => d
  | p :: rest => dictUpdate (dictInsert d p.1 p.2) rest

/-- The dynamic (JSON-serializable) Python values produced by the renderer,
plus the hybrid_property descriptor objects that the source hands to the
column filter. -/
inductive PyVal : Type where
  | str : String → PyVal
  | none : PyVal
  | bool : Bool → PyVal
  | list : List PyVal → PyVal
  | dict : List (String × PyVal) → PyVal
  | hybridProp : String → PyVal

/-- A Python value that is either a string or None. -/
def optStr : Option String → PyVal
  | some s => PyVal.str s
  | Option.none => PyVal.none

abbrev PyDict := List (String × PyVal)

/-! ### Structural metadata of a reflected model (the SQLAlchemy facts the
source reads: columns, relationships, hybrid properties, association
proxies, methods, mapper arguments and base classes). -/

/-- One stored column: its table column name and the class name of its type
(`column.name`, `column.type.__class__.__name__`). -/
structure ColumnMeta where
  name : String
  type_name : String
deriving DecidableEq

/-- One direct relationship as reported by `sqla_inspect(model).relationships`:
`rel.key`, `rel.direction.name`, `rel.uselist`, `rel.mapper.class_.__name__`,
`rel.back_populates` and the keys of `rel.local_columns`. -/
structure RelMeta where
  key : String
  direction : String
  uselist : Bool
  foreign_model : String
  back_populates : Option String
  local_columns : List String
deriving DecidableEq

/-- One hybrid property descriptor (`attribute.__name__`). -/
structure HybridMeta where
  name : String
deriving DecidableEq

/-- What `attr.remote_attr` of a bound association proxy exposes: a
relationship property (with the remote class found by
`get_related_association_proxy_model`), a plain column property (with the
column type class name), some other property, or no `property` attribute at
all (in which case the source skips the proxy). -/
inductive ProxyRemote : Type where
  | relationship : String → ProxyRemote
  | column : String → ProxyRemote
  | otherProperty : ProxyRemote
  | noProperty : ProxyRemote
deriving DecidableEq

/-- One association proxy found in `model.__dict__`: its attribute name,
`attr.scalar`, and its remote target. -/
structure ProxyMeta where
  name : String
  scalar : Bool
  remote : ProxyRemote
deriving DecidableEq

/-- One declared parameter of a model method, as `inspect.signature` reports
it: name, whether it is `*args` / `**kwargs`, and whether it has a default. -/
inductive ParamKind : Type where
  | normal : ParamKind
  | varPositional : ParamKind
  | varKeyword : ParamKind
deriving DecidableEq

structure ParamMeta where
  name : String
  kind : ParamKind
  has_default : Bool
deriving DecidableEq

/-- One plain function member of the model class (from
`inspect.getmembers(model, predicate=inspect.isfunction)`). -/
structure MethodMeta where
  name : String
  params : List ParamMeta
deriving DecidableEq

/-- One base class of the model as `flag_inheritance_models` examines it:
its name, whether it is a `db.Model` subclass other than `db.Model` itself,
and the value `__mapper_args__['polymorphic_on']` would yield on it (already
reduced to its `.key` string when it is a column object; `Option.none` when
the lookup would raise). -/
structure BaseRef where
  name : String
  is_data_model : Bool
  mapper_args_on : Option String
deriving DecidableEq

/-- Everything the renderer reads off one model class.  `polymorphic_identity`
is `some v` exactly when the model has `__mapper_args__` with a
`polymorphic_identity` entry; `polymorphic_on` likewise for its own
discriminator declaration. -/
structure ModelMeta where
  name : String
  pk_name : String
  columns : List ColumnMeta
  relationships : List RelMeta
  hybrids : List HybridMeta
  proxies : List ProxyMeta
  methods_meta : List MethodMeta
  polymorphic_identity : Option String
  polymorphic_on : Option String
  bases : List BaseRef
deriving DecidableEq

/-- The per-model registration input: the model plus the keyword arguments
`collection_name`, `bp_name`, `included`, `excluded` captured from the
flask-restless configuration. -/
structure ModelInput where
  meta : ModelMeta
  collection_name : String
  bp_name : String
  included : List String
  excluded : List String
deriving DecidableEq

/-! ### The attribute filter (render.py, get_is_valid_validator) -/

/-- Python `column.split('.')[-1]`. -/
def last_segment (column : String) : String :=
  (column.splitOn ".").getLastD ""

/-- The validator produced by `get_is_valid_validator(included, excluded)`
on a string argument: test only the final dot-separated segment; a non-empty
`excluded` vetoes membership, a non-empty `included` is an allow-list. -/
def is_valid_str (included excluded : List String) (column : String) : Bool :=
  let column := last_segment column
  let valid_excl := if excluded.isEmpty then true else decide (column ∉ excluded)
  let valid_incl := if included.isEmpty then true else decide (column ∈ included)
  valid_excl && valid_incl

/-- The same validator applied to an arbitrary Python value, as the source
does in `render_hybrid_properties`: `column.split('.')` raises
AttributeError unless the argument is a string. -/
def is_valid_dyn (included excluded : List String) : PyVal → Except String Bool
  | PyVal.str s => Except.ok (is_valid_str included excluded s)
  | PyVal.hybridProp _ =>
      Except.error "AttributeError: hybrid_property object has no attribute split"
  | _ => Except.error "AttributeError: object has no attribute split"

/-! ### Attribute, relation, hybrid and proxy reflection
(render.py, ClassDefinitionRenderer) -/

/-- Loop body of `render_attributes`: for each table column passing the
filter, record `column.name -> column.type.__class__.__name__.lower()`. -/
def render_attributes_loop (valid : String → Bool) (acc : List (String × String)) :
    List ColumnMeta → List (String × String)
  | [] => acc
  | c :: rest =>
      if valid c.name then
        render_attributes_loop valid (dictInsert acc c.name c.type_name.toLower) rest
      else
        render_attributes_loop valid acc rest

def render_attributes (m : ModelMeta) (valid : String → Bool) : List (String × String) :=
  render_attributes_loop valid [] m.columns

/-- The dict built for one direct relationship in `render_relations`:
normalize a scalar ONETOMANY to ONETOONE, always record `backref` (None when
no reciprocal is declared), and add `local_column` for MANYTOONE from
`list(rel.local_columns)[0].key` (IndexError if that list is empty). -/
def render_relation_entry (rel : RelMeta) : Except String PyVal :=
  let direction := if rel.direction = "ONETOMANY" ∧ rel.uselist = false then "ONETOONE"
                   else rel.direction
  let base : PyDict :=
    [("foreign_model", PyVal.str rel.foreign_model),
     ("relation_type", PyVal.str direction),
     ("backref", optStr rel.back_populates)]
  if rel.direction = "MANYTOONE" then
    match rel.local_columns.head? with
    | some c => Except.ok (PyVal.dict (dictInsert base "local_column" (PyVal.str c)))
    | Option.none => Except.error "IndexError: list index out of range"
  else Except.ok (PyVal.dict base)

def render_relations_loop (valid : String → Bool) (fk : PyDict) :
    List RelMeta → Except String PyDict
  | [] => Except.ok fk
  | rel :: rest =>
      if valid rel.key then
        match render_relation_entry rel with
        | Except.ok v => render_relations_loop valid (dictInsert fk rel.key v) rest
        | Except.error e => Except.error e
      else
        render_relations_loop valid fk rest

def render_relations (m : ModelMeta) (valid : String → Bool) : Except String PyDict :=
  render_relations_loop valid [] m.relationships

/-- Loop body of `render_hybrid_properties`.  The source calls
`is_valid(attribute)` on the hybrid_property descriptor object itself (not
on `attribute.__name__`), so the validator raises for every hybrid. -/
def render_hybrid_loop (included excluded : List String) (acc : List (String × String)) :
    List HybridMeta → Except String (List (String × String))
  | [] => Except.ok acc
  | h :: rest =>
      match is_valid_dyn included excluded (PyVal.hybridProp h.name) with
      | Except.ok true => render_hybrid_loop included excluded (dictInsert acc h.name "hybrid") rest
      | Except.ok false => render_hybrid_loop included excluded acc rest
      | Except.error e => Except.error e

def render_hybrid_properties (m : ModelMeta) (included excluded : List String) :
    Except String (List (String × String)) :=
  render_hybrid_loop included excluded [] m.hybrids

/-- Loop of `render_association_proxies` over the proxies whose bound
`remote_attr` has a `property` attribute: a relationship-valued proxy is
recorded as a relation (`MANYTOONE` when `attr.scalar`, else `ONETOMANY`,
with `is_proxy` and neither `backref` nor `local_column`); a column-valued
proxy is recorded as a scalar attribute with the column's lowercased type
class name; any other property kind falls through silently. -/
def render_proxies_loop (acc : (List (String × String)) × PyDict) :
    List ProxyMeta → (List (String × String)) × PyDict
  | [] => acc
  | p :: rest =>
      match p.remote with
      | ProxyRemote.relationship cls =>
          render_proxies_loop
            (acc.1,
             dictInsert acc.2 p.name (PyVal.dict
               [("foreign_model", PyVal.str cls),
                ("relation_type",
                 PyVal.str (if p.scalar then "MANYTOONE" else "ONETOMANY")),
                ("is_proxy", PyVal.bool true)])) rest
      | ProxyRemote.column t =>
          render_proxies_loop (dictInsert acc.1 p.name t.toLower, acc.2) rest
      | _ => render_proxies_loop acc rest

def render_association_proxies (m : ModelMeta) (attribute_dict : List (String × String))
    (foreign_keys : PyDict) : (List (String × String)) × PyDict :=
  let proxies := m.proxies.filter (fun p =>
    match p.remote with
    | ProxyRemote.noProperty => false
    | _ => true)
  render_proxies_loop (attribute_dict, foreign_keys) proxies

/-! ### Method reflection (render.py, MethodDefinitionRenderer) -/

/-- Parameter classification loop of `compile_method_list`: skip `self`,
route `**kwargs` / `*args` to the variadic slots (last declaration wins),
and split the rest into required (no default) and optional (with default),
in declaration order. -/
def compile_params_loop (acc : List String × List String × Option String × Option String) :
    List ParamMeta → List String × List String × Option String × Option String
  | [] => acc
  | p :: rest =>
      if p.name = "self" then compile_params_loop acc rest
      else
        match p.kind with
        | ParamKind.varKeyword => compile_params_loop (acc.1, acc.2.1, acc.2.2.1, some p.name) rest
        | ParamKind.varPositional => compile_params_loop (acc.1, acc.2.1, some p.name, acc.2.2.2) rest
        | ParamKind.normal =>
            if p.has_default then compile_params_loop (acc.1, acc.2.1 ++ [p.name], acc.2.2.1, acc.2.2.2) rest
            else compile_params_loop (acc.1 ++ [p.name], acc.2.1, acc.2.2.1, acc.2.2.2) rest

def compile_params (ps : List ParamMeta) : List String × List String × Option String × Option String :=
  compile_params_loop ([], [], Option.none, Option.none) ps

/-- The method descriptor dict built for one reflected function: the four
keys `args`, `kwargs`, `argsvar`, `kwargsvar` are always present, the two
variadic ones with value None when no such parameter is declared. -/
def method_entry (ps : List ParamMeta) : PyDict :=
  let c := compile_params ps
  [("args", PyVal.list (c.1.map PyVal.str)),
   ("kwargs", PyVal.list (c.2.1.map PyVal.str)),
   ("argsvar", optStr c.2.2.1),
   ("kwargsvar", optStr c.2.2.2)]

/-- `compile_method_list`: skip dunder names always and single-underscore
names unless `include_model_internal_functions` is set; key the resulting
descriptors by method name. -/
def compile_method_loop (include_internal : Bool) (methods : PyDict) :
    List MethodMeta → PyDict
  | [] => methods
  | mm :: rest =>
      if mm.name.startsWith "__" then compile_method_loop include_internal methods rest
      else if mm.name.startsWith "_" ∧ include_internal = false then
        compile_method_loop include_internal methods rest
      else
        compile_method_loop include_internal
          (dictInsert methods mm.name (PyVal.dict (method_entry mm.params))) rest

def compile_method_list (include_internal : Bool) (ms : List MethodMeta) : PyDict :=
  compile_method_loop include_internal [] ms

/-! ### The per-model descriptor (render.py, ClassDefinitionRenderer.render)
and the composed data model (render.py, DataModelRenderer) -/

/-- The `polymorphic` sub-dict of a descriptor.  Each field is `some` exactly
when the corresponding key is present in the Python dict: a child gets
`parent` (plus, in the datamodel.py flow, `identity`), a parent gets `on`
and `identities`. -/
structure PolyRender where
  parent : Option String
  identity : Option String
  on_col : Option String
  identities : Option (List (String × String))
deriving DecidableEq

/-- The empty Python dict `{}` viewed as a polymorphic sub-dict. -/
def emptyPoly : PolyRender :=
  { parent := Option.none, identity := Option.none,
    on_col := Option.none, identities := Option.none }

/-- One rendered model descriptor.  `attributes` maps attribute name to type
tag; `relations` and `methods` hold the per-entry dicts; `polymorphic` is
absent until inheritance resolution adds it. -/
structure ModelDescriptor where
  pk_name : String
  collection_name : String
  attributes : List (String × String)
  relations : PyDict
  methods : PyDict
  polymorphic : Option PolyRender

/-- `ClassDefinitionRenderer.render`: attributes from the table columns,
relations from the direct relationships, hybrid properties merged into the
attribute dict, then association proxies merged into both. `bp_name` is an
accepted but unused keyword of the source method. -/
def class_render (m : ModelMeta) (collection_name : String) (bp_name : String)
    (included excluded : List String) : Except String ModelDescriptor :=
  let valid := is_valid_str included excluded
  let attribute_dict := render_attributes m valid
  match render_relations m valid with
  | Except.error e => Except.error e
  | Except.ok foreign_keys =>
    match render_hybrid_properties m included excluded with
    | Except.error e => Except.error e
    | Except.ok hybrids =>
        let attribute_dict := dictUpdate attribute_dict hybrids
        let both := render_association_proxies m attribute_dict foreign_keys
        Except.ok
          { pk_name := m.pk_name,
            collection_name := collection_name,
            attributes := both.1,
            relations := both.2,
            methods := [],
            polymorphic := Option.none }

/-- What `flag_inheritance_models` returns for a flagged model:
`parent.__mapper_args__['polymorphic_on']`, the parent class name, and the
model's own polymorphic identity. -/
structure PolyFlag where
  on_col : String
  parent : String
  identity : String
deriving DecidableEq

/-- `DataModelRenderer.flag_inheritance_models`: a model is polymorphic when
its mapper args declare an identity; its parent is the last base class that
is a `db.Model` subclass other than `db.Model`; reading the parent's
`polymorphic_on` raises KeyError when the parent declares none; without an
eligible parent the method silently returns None. -/
def flag_inheritance_models (m : ModelMeta) : Except String (Option PolyFlag) :=
  match m.polymorphic_identity with
  | Option.none => Except.ok Option.none
  | some identity =>
      match (m.bases.filter (fun b => b.is_data_model)).getLast? with
      | Option.none => Except.ok Option.none
      | some parent =>
          match parent.mapper_args_on with
          | Option.none => Except.error "KeyError: polymorphic_on"
          | some onv => Except.ok (some { on_col := onv, parent := parent.name, identity := identity })

/-- `DataModelRenderer.resolve_inheritance`: look up the parent and child
descriptors, extend the child's attribute and relation dicts with the
parent's via `dict.update` (so parent entries overwrite child entries on
key collision), overwrite the child's `polymorphic` with `{'parent': ...}`,
then mutate the parent descriptor: `setdefault('polymorphic', {})['on']` and
`setdefault('identities', {})[identity] = model`.  The parent is re-read
after the child write because in Python both are live references into the
same dict. -/
def resolve_inheritance (model : String) (inh : PolyFlag)
    (dm : List (String × ModelDescriptor)) : Except String (List (String × ModelDescriptor)) :=
  match dictLookup dm inh.parent, dictLookup dm model with
  | some _, some odef0 =>
      match dictLookup dm inh.parent with
      | Option.none => Except.error "KeyError: parent not rendered"
      | some idef0 =>
          let odef :=
            { odef0 with
              attributes := dictUpdate odef0.attributes idef0.attributes,
              relations := dictUpdate odef0.relations idef0.relations,
              polymorphic :=
                some { parent := some inh.parent, identity := Option.none,
                       on_col := Option.none, identities := Option.none } }
          let dm2 := dictInsert dm model odef
          match dictLookup dm2 inh.parent with
          | Option.none => Except.error "KeyError: parent not rendered"
          | some idef =>
              let poly0 := idef.polymorphic.getD
                { parent := Option.none, identity := Option.none,
                  on_col := Option.none, identities := Option.none }
              let poly :=
                { poly0 with
                  on_col := some inh.on_col,
                  identities := some (dictInsert (poly0.identities.getD []) inh.identity model) }
              Except.ok (dictInsert dm2 inh.parent { idef with polymorphic := some poly })
  | _, _ => Except.error "KeyError: model not rendered"

/-- First pass of `DataModelRenderer.render`: render every model (methods
attached from the method renderer's compilation of the same model), and
collect the inheritance flags in iteration order. -/
def render_models_loop (include_internal : Bool)
    (dm : List (String × ModelDescriptor)) (flagged : List (String × PolyFlag)) :
    List ModelInput → Except String (List (String × ModelDescriptor) × List (String × PolyFlag))
  | [] => Except.ok (dm, flagged)
  | mi :: rest =>
      match class_render mi.meta mi.collection_name mi.bp_name mi.included mi.excluded with
      | Except.error e => Except.error e
      | Except.ok md0 =>
          let md := { md0 with methods := compile_method_list include_internal mi.meta.methods_meta }
          match flag_inheritance_models mi.meta with
          | Except.error e => Except.error e
          | Except.ok flag =>
              let flagged2 :=
                match flag with
                | some f => dictInsert flagged mi.meta.name f
                | Option.none => flagged
              render_models_loop include_internal (dictInsert dm mi.meta.name md) flagged2 rest

/-- Second pass of `DataModelRenderer.render`: resolve each flagged model in
flag-collection order. -/
def resolve_all_loop (dm : List (String × ModelDescriptor)) :
    List (String × PolyFlag) → Except String (List (String × ModelDescriptor))
  | [] => Except.ok dm
  | mf :: rest =>
      match resolve_inheritance mf.1 mf.2 dm with
      | Except.error e => Except.error e
      | Except.ok dm2 => resolve_all_loop dm2 rest

/-- `DataModelRenderer.render`: first pass over the registered models, then
the inheritance-resolution pass over the collected flags. -/
def data_model_render (include_internal : Bool) (models : List ModelInput) :
    Except String (List (String × ModelDescriptor)) :=
  match render_models_loop include_internal [] [] models with
  | Except.error e => Except.error e
  | Except.ok dmfl => resolve_all_loop dmfl.1 dmfl.2

/-! ### Registration state (datamodel.py, DataModel) -/

/-- The mutable state a `DataModel` instance accumulates across
`register_model` calls: the rendered schema keyed by model name, and
`polymorphic_info`, a defaultdict mapping a parent model name to its
identity-value -> child-name dict.  Neither is ever cleared. -/
structure DMState where
  data_model : List (String × ModelDescriptor)
  polymorphic_info : List (String × List (String × String))

/-- Nested lookup in `polymorphic_info`: the child recorded for one identity
value of one parent. -/
def poly_info_lookup (pinfo : List (String × List (String × String)))
    (parent identity : String) : Option String :=
  match dictLookup pinfo parent with
  | some d => dictLookup d identity
  | Option.none => Option.none

/-- Python dict truthiness of the polymorphic dict returned for a model. -/
def polyNonempty (p : PolyRender) : Bool :=
  p.parent.isSome || p.identity.isSome || p.on_col.isSome || p.identities.isSome

/-- Modelled from the spec: `DataModelRenderer.render_polymorphic`, called by
`datamodel.py:register_model` but absent from the sources in src/ (render.py
ships the older `flag_inheritance_models`/`resolve_inheritance` pair
instead).  Following spec 4.6, detection reuses the declared identity and
the nearest recognized ancestor (the same facts `flag_inheritance_models`
extracts); a child reports `parent` and `identity`; a model for which
identity entries have accumulated reports its own discriminator `on` and the
accumulated `identities`. -/
def render_polymorphic (m : ModelMeta) (identities : List (String × String)) :
    Except String PolyRender :=
  match flag_inheritance_models m with
  | Except.error e => Except.error e
  | Except.ok flag =>
      let base : PolyRender :=
        match flag with
        | some f =>
            { parent := some f.parent, identity := some f.identity,
              on_col := Option.none, identities := Option.none }
        | Option.none =>
            { parent := Option.none, identity := Option.none,
              on_col := Option.none, identities := Option.none }
      if identities.isEmpty then Except.ok base
      else Except.ok { base with on_col := m.polymorphic_on, identities := some identities }

/-- `DataModel.register_model`: render the model afresh, compute its
polymorphic dict from the identities accumulated so far under its own name,
record `polymorphic_info[parent][identity] = name` when it is a child, attach
the polymorphic dict when non-empty, and overwrite `data_model[name]`.
`polymorphic_info` is only ever added to, never pruned. -/
def register_model (include_internal : Bool) (st : DMState) (mi : ModelInput) :
    Except String DMState :=
  let name := mi.meta.name
  match class_render mi.meta mi.collection_name mi.bp_name mi.included mi.excluded with
  | Except.error e => Except.error e
  | Except.ok render0 =>
      let render1 := { render0 with
        methods := compile_method_list include_internal mi.meta.methods_meta }
      match render_polymorphic mi.meta ((dictLookup st.polymorphic_info name).getD []) with
      | Except.error e => Except.error e
      | Except.ok poly =>
          let pinfo :=
            match poly.parent, poly.identity with
            | some parent, some identity =>
                dictInsert st.polymorphic_info parent
                  (dictInsert ((dictLookup st.polymorphic_info parent).getD []) identity name)
            | _, _ => st.polymorphic_info
          let render2 :=
            if polyNonempty poly then { render1 with polymorphic := some poly } else render1
          Except.ok { data_model := dictInsert st.data_model name render2,
                      polymorphic_info := pinfo }

/-! ### Projection helpers and concrete inputs used by the theorems below -/

/-- Blank model metadata, filled in per concrete example. -/
def baseMeta (nm : String) : ModelMeta :=
  { name := nm, pk_name := "id", columns := [], relationships := [], hybrids := [],
    proxies := [], methods_meta := [], polymorphic_identity := Option.none,
    polymorphic_on := Option.none, bases := [] }

/-- Registration input with empty include/exclude configuration. -/
def plainInput (m : ModelMeta) : ModelInput :=
  { meta := m, collection_name := m.name ++ "s", bp_name := "bp",
    included := [], excluded := [] }

/-- Look one model descriptor up in the result of a composition. -/
def schemaLookup (r : Except String (List (String × ModelDescriptor))) (name : String) :
    Option ModelDescriptor :=
  match r with
  | Except.ok dm => dictLookup dm name
  | Except.error _ => Option.none

/-- The `relation_type` entry of a rendered relation value. -/
def relation_type_of : PyVal → Option PyVal
  | PyVal.dict d => dictLookup d "relation_type"
  | _ => Option.none

/-- The `parent` entry of a descriptor's polymorphic dict (None both when the
dict is absent and when it carries no parent key). -/
def poly_parent_field : Option PolyRender → Option String
  | some p => p.parent
  | Option.none => Option.none

/-- No field name is at once an attribute key and a relation key of any
descriptor of the schema. -/
def attrs_relations_disjoint (dm : List (String × ModelDescriptor)) : Prop :=
  ∀ n d k, dictLookup dm n = some d →
    (dictLookup d.attributes k).isSome → (dictLookup d.relations k).isSome → False

/-! Concrete models for the C1 counterexample: a child overriding an
attribute the parent also defines, with differing type tags. -/

def c1_child : ModelDescriptor :=
  { pk_name := "id", collection_name := "cs",
    attributes := [("x", "integer")], relations := [], methods := [],
    polymorphic := Option.none }

def c1_parent : ModelDescriptor :=
  { pk_name := "id", collection_name := "ps",
    attributes := [("x", "string")], relations := [], methods := [],
    polymorphic := Option.none }

/-! Concrete three-level chain for C2: grandparent G, middle P (child of G),
child C (child of P), each contributing one column. -/

def c2_g : ModelMeta :=
  { baseMeta "G" with columns := [⟨"g", "Integer"⟩], polymorphic_on := some "kind" }

def c2_p : ModelMeta :=
  { baseMeta "P" with
    columns := [⟨"p", "Integer"⟩],
    polymorphic_identity := some "p", polymorphic_on := some "kind",
    bases := [⟨"G", true, some "kind"⟩] }

def c2_c : ModelMeta :=
  { baseMeta "C" with
    columns := [⟨"c", "Integer"⟩],
    polymorphic_identity := some "c",
    bases := [⟨"P", true, some "kind"⟩] }

/-! Concrete model for the C3 counterexample: the table column is named
`parent` (its attribute is e.g. `parent_id = Column('parent', ...)`) while the
relationship attribute is also `parent` — legal SQLAlchemy, and the renderer
keys attributes by `column.name` but relations by `rel.key`. -/

def c3_meta : ModelMeta :=
  { baseMeta "Child" with
    columns := [⟨"parent", "Integer"⟩, ⟨"id", "Integer"⟩],
    relationships := [⟨"parent", "MANYTOONE", false, "Parent", Option.none, ["parent"]⟩] }

/-- C6 failing input: any model with one hybrid property. -/
def c6_meta : ModelMeta :=
  { baseMeta "Person" with hybrids := [⟨"full_name"⟩] }

/-! Concrete registrations for C9: a child registered with identity `a`,
its parent, then the child re-registered with a changed configuration
(identity `b`, different column). -/

def c9_child_v1 : ModelMeta :=
  { baseMeta "Child" with
    columns := [⟨"c1", "Integer"⟩],
    polymorphic_identity := some "a",
    bases := [⟨"P", true, some "kind"⟩] }

def c9_child_v2 : ModelMeta :=
  { baseMeta "Child" with
    columns := [⟨"c2", "Integer"⟩],
    polymorphic_identity := some "b",
    bases := [⟨"P", true, some "kind"⟩] }

def c9_parent : ModelMeta :=
  { baseMeta "P" with
    columns := [⟨"kind", "String"⟩],
    polymorphic_on := some "kind" }

def c9_st1 : Except String DMState :=
  register_model false ⟨[], []⟩ (plainInput c9_child_v1)

def c9_st2 : Except String DMState :=
  match c9_st1 with
  | Except.ok s => register_model false s (plainInput c9_parent)
  | e => e

def c9_st3 : Except String DMState :=
  match c9_st2 with
  | Except.ok s => register_model false s (plainInput c9_child_v2)
  | e => e

/-- The accumulated polymorphic_info of a registration state. -/
def state_poly_info (r : Except String DMState) : List (String × List (String × String)) :=
  match r with
  | Except.ok s => s.polymorphic_info
  | Except.error _ => []

/-- One data_model entry of a registration state. -/
def state_model (r : Except String DMState) (n : String) : Option ModelDescriptor :=
  match r with
  | Except.ok s => dictLookup s.data_model n
  | Except.error _ => Option.none

/-! Concrete models for C10: Employee declares both its discriminator and its
own polymorphic identity but has no eligible parent base; Manager inherits
from it. -/

def c10_emp : ModelMeta :=
  { baseMeta "Employee" with
    polymorphic_identity := some "employee", polymorphic_on := some "type" }

def c10_mgr : ModelMeta :=
  { baseMeta "Manager" with
    polymorphic_identity := some "manager",
    bases := [⟨"Employee", true, some "type"⟩] }

/-- The payload of a successful composition, empty schema on error. -/
def okD (r : Except String (List (String × ModelDescriptor))) :
    List (String × ModelDescriptor) :=
  match r with
  | Except.ok x => x
  | Except.error _ => []

/-! Concrete descriptors for the C2 witness: the same three-level chain, this
time resolved parent-first. -/

def c2_w_g : ModelDescriptor :=
  { pk_name := "id", collection_name := "gs",
    attributes := [("g", "integer")], relations := [], methods := [],
    polymorphic := Option.none }

def c2_w_p : ModelDescriptor :=
  { pk_name := "id", collection_name := "ps",
    attributes := [("p", "integer")], relations := [], methods := [],
    polymorphic := Option.none }

def c2_w_c : ModelDescriptor :=
  { pk_name := "id", collection_name := "cs",
    attributes := [("c", "integer")], relations := [], methods := [],
    polymorphic := Option.none }

def c2_w_dm : List (String × ModelDescriptor) :=
  [("G", c2_w_g), ("P", c2_w_p), ("C", c2_w_c)]

def c2_w_dm1 : List (String × ModelDescriptor) :=
  okD (resolve_inheritance "P" ⟨"kind", "G", "p"⟩ c2_w_dm)

def c2_w_dm2 : List (String × ModelDescriptor) :=
  okD (resolve_inheritance "C" ⟨"kind", "P", "c"⟩ c2_w_dm1)

/-- C4 witness input: a relationship declared ONETOMANY whose remote side is
scalar (`uselist = False`). -/
def c4_w_meta : ModelMeta :=
  { baseMeta "Parent" with
    relationships := [⟨"kids", "ONETOMANY", false, "Kid", some "parent", []⟩] }

/-- C7 witness input: one association proxy targeting a relationship and one
targeting a plain column. -/
def c7_w_meta : ModelMeta :=
  { baseMeta "Recipe" with
    proxies := [⟨"tags", false, ProxyRemote.relationship "Tag"⟩,
                ⟨"score", true, ProxyRemote.column "Integer"⟩] }

/-- The payload of a successful registration step, empty state on error. -/
def okSt (r : Except String DMState) : DMState :=
  match r with
  | Except.ok s => s
  | Except.error _ => ⟨[], []⟩

/-! C9 witness material: a parent with one identity already recorded, and a
re-registration of the child under a new identity. -/

def c9_w_child : ModelMeta :=
  { baseMeta "Child" with
    polymorphic_identity := some "b",
    bases := [⟨"P", true, some "kind"⟩] }

def c9_w_input : ModelInput :=
  { meta := c9_w_child, collection_name := "children", bp_name := "bp",
    included := [], excluded := [] }

def c9_w_st : DMState :=
  { data_model := [], polymorphic_info := [("P", [("a", "Child")])] }

def c9_w_st2 : DMState :=
  okSt (register_model false c9_w_st c9_w_input)

def c9_w_base : ModelDescriptor :=
  { pk_name := "id", collection_name := "children",
    attributes := [], relations := [], methods := [], polymorphic := Option.none }

/-- Per-descriptor key discipline: every attribute key satisfies `A`, every
relation key satisfies `R`. -/
def keys_bounded (A R : String → Prop) (d : ModelDescriptor) : Prop :=
  (∀ k, (dictLookup d.attributes k).isSome → A k) ∧
  (∀ k, (dictLookup d.relations k).isSome → R k)

/-- All scalar-side names a model's metadata can contribute satisfy `A`:
column names, hybrid names and column-valued proxy names. -/
def meta_attr_names_in (A : String → Prop) (m : ModelMeta) : Prop :=
  (∀ c ∈ m.columns, A c.name) ∧
  (∀ h ∈ m.hybrids, A h.name) ∧
  (∀ p ∈ m.proxies, ∀ t, p.remote = ProxyRemote.column t → A p.name)

/-- All relation-side names a model's metadata can contribute satisfy `R`:
relationship keys and relationship-valued proxy names. -/
def meta_rel_names_in (R : String → Prop) (m : ModelMeta) : Prop :=
  (∀ r ∈ m.relationships, R r.key) ∧
  (∀ p ∈ m.proxies, ∀ cls, p.remote = ProxyRemote.relationship cls → R p.name)

/-- C3 witness model: one column name and one distinct relationship key. -/
def c3_w_meta : ModelMeta :=
  { baseMeta "M" with
    columns := [⟨"a", "Integer"⟩],
    relationships := [⟨"r", "MANYTOONE", false, "Foo", Option.none, ["a"]⟩] }

def c3_w_dm : List (String × ModelDescriptor) :=
  okD (data_model_render false [plainInput c3_w_meta])

/-! C10 witness material: a model declaring an identity with no eligible
parent base at all. -/

def c10_w_meta : ModelMeta :=
  { baseMeta "Lone" with polymorphic_identity := some "x" }

def c10_w_input : ModelInput :=
  { meta := c10_w_meta, collection_name := "lones", bp_name := "bp",
    included := [], excluded := [] }

def c10_w_base : ModelDescriptor :=
  { pk_name := "id", collection_name := "lones",
    attributes := [], relations := [], methods := [], polymorphic := Option.none }

def c10_w_dm : List (String × ModelDescriptor) :=
  okD (data_model_render false [c10_w_input])

/-! ### Lemmas about the dict primitives -/

theorem dictLookup_eq_none_iff {α : Type} (d : List (String × α)) (k : String) :
    dictLookup d k = Option.none ↔ k ∉ d.map Prod.fst := by
  induction d with
  | nil => simp [dictLookup]
  | cons p rest ih =>
    by_cases h : p.1 = k
    · simp [dictLookup, h]
    · simp [dictLookup, h, ih, Ne.symm h]

theorem dictLookup_isSome_iff {α : Type} (d : List (String × α)) (k : String) :
    (dictLookup d k).isSome ↔ k ∈ d.map Prod.fst := by
  constructor
  · intro h
    by_contra hmem
    rw [← dictLookup_eq_none_iff] at hmem
    rw [hmem] at h
    simp at h
  · intro h
    cases hl : dictLookup d k with
    | none => rw [dictLookup_eq_none_iff] at hl; exact absurd h hl
    | some v => rfl

theorem dictInsert_lookup_self {α : Type} (d : List (String × α)) (k : String) (v : α) :
    dictLookup (dictInsert d k v) k = some v := by
  induction d with
  | nil => simp [dictInsert, dictLookup]
  | cons p rest ih =>
    by_cases h : p.1 = k
    · simp [dictInsert, h, dictLookup]
    · simp [dictInsert, h, dictLookup, ih]

theorem dictInsert_lookup_other {α : Type} (d : List (String × α)) (k k' : String) (v : α)
    (h : k' ≠ k) : dictLookup (dictInsert d k v) k' = dictLookup d k' := by
  induction d with
  | nil => simp [dictInsert, dictLookup, Ne.symm h]
  | cons p rest ih =>
    by_cases hp : p.1 = k
    · subst hp
      simp [dictInsert, dictLookup, Ne.symm h]
    · by_cases hp' : p.1 = k'
      · simp [dictInsert, hp, dictLookup, hp', h]
      · simp [dictInsert, hp, dictLookup, hp', ih]

theorem dictInsert_lookup_cases {α : Type} (d : List (String × α)) (k k' : String) (v w : α)
    (h : dictLookup (dictInsert d k v) k' = some w) :
    (k' = k ∧ w = v) ∨ dictLookup d k' = some w := by
  by_cases hk : k' = k
  · subst hk
    rw [dictInsert_lookup_self] at h
    exact Or.inl ⟨rfl, (Option.some_inj.mp h).symm⟩
  · rw [dictInsert_lookup_other d k k' v hk] at h
    exact Or.inr h

theorem dictInsert_lookup_isSome_mono {α : Type} (d : List (String × α)) (k k' : String)
    (v : α) (h : (dictLookup d k').isSome) : (dictLookup (dictInsert d k v) k').isSome := by
  by_cases hk : k' = k
  · subst hk; rw [dictInsert_lookup_self]; rfl
  · rw [dictInsert_lookup_other d k k' v hk]; exact h

theorem dictInsert_mem_keys {α : Type} (d : List (String × α)) (k a : String) (v : α) :
    a ∈ (dictInsert d k v).map Prod.fst ↔ a ∈ d.map Prod.fst ∨ a = k := by
  induction d with
  | nil => simp [dictInsert]
  | cons p rest ih =>
    by_cases h : p.1 = k
    · subst h
      simp [dictInsert]
      tauto
    · simp [dictInsert, h, ih]
      tauto

theorem dictInsert_keys_nodup {α : Type} (d : List (String × α)) (k : String) (v : α)
    (h : (d.map Prod.fst).Nodup) : ((dictInsert d k v).map Prod.fst).Nodup := by
  induction d with
  | nil => simp [dictInsert]
  | cons p rest ih =>
    simp only [List.map_cons, List.nodup_cons] at h
    by_cases hp : p.1 = k
    · subst hp
      simpa [dictInsert] using h
    · simp only [dictInsert, hp, if_false, List.map_cons, List.nodup_cons]
      refine ⟨?_, ih h.2⟩
      rw [dictInsert_mem_keys]
      rintro (h1 | h1)
      · exact h.1 h1
      · exact hp h1

theorem dictUpdate_lookup_isSome_left {α : Type} (e d : List (String × α)) (k : String)
    (h : (dictLookup d k).isSome) : (dictLookup (dictUpdate d e) k).isSome := by
  induction e generalizing d with
  | nil => exact h
  | cons p rest ih => exact ih _ (dictInsert_lookup_isSome_mono _ _ _ _ h)

theorem dictUpdate_lookup_isSome_right {α : Type} (e d : List (String × α)) (k : String)
    (h : k ∈ e.map Prod.fst) : (dictLookup (dictUpdate d e) k).isSome := by
  induction e generalizing d with
  | nil => simp at h
  | cons p rest ih =>
    simp only [List.map_cons, List.mem_cons] at h
    rcases h with h1 | h1
    · by_cases hr : k ∈ rest.map Prod.fst
      · exact ih _ hr
      · rw [show dictUpdate d (p :: rest) = dictUpdate (dictInsert d p.1 p.2) rest from rfl]
        refine dictUpdate_lookup_isSome_left _ _ _ ?_
        rw [h1, dictInsert_lookup_self]; rfl
    · exact ih _ h1

theorem dictUpdate_lookup_isSome_elim {α : Type} (e d : List (String × α)) (k : String)
    (h : (dictLookup (dictUpdate d e) k).isSome) :
    (dictLookup d k).isSome ∨ k ∈ e.map Prod.fst := by
  induction e generalizing d with
  | nil => exact Or.inl h
  | cons p rest ih =>
    rcases ih _ h with h1 | h1
    · by_cases hk : k = p.1
      · exact Or.inr (by simp [hk])
      · rw [dictInsert_lookup_other _ _ _ _ hk] at h1
        exact Or.inl h1
    · exact Or.inr (by simp [h1])

theorem dictUpdate_lookup_of_nodup {α : Type} (e d : List (String × α)) (k : String)
    (hnd : (e.map Prod.fst).Nodup) :
    dictLookup (dictUpdate d e) k =
      match dictLookup e k with
      | some v => some v
      | Option.none => dictLookup d k := by
  induction e generalizing d with
  | nil => simp [dictUpdate, dictLookup]
  | cons p rest ih =>
    simp only [List.map_cons, List.nodup_cons] at hnd
    by_cases hp : p.1 = k
    · have hrest : dictLookup rest k = Option.none := by
        rw [dictLookup_eq_none_iff]
        rw [hp] at hnd
        exact hnd.1
      rw [show dictUpdate d (p :: rest) = dictUpdate (dictInsert d p.1 p.2) rest from rfl,
        ih _ hnd.2]
      simp [dictLookup, hp, hrest, hp ▸ dictInsert_lookup_self d p.1 p.2]
    · rw [show dictUpdate d (p :: rest) = dictUpdate (dictInsert d p.1 p.2) rest from rfl,
        ih _ hnd.2]
      cases hr : dictLookup rest k with
      | some v => simp [dictLookup, hp, hr]
      | none => simp [dictLookup, hp, hr, dictInsert_lookup_other d p.1 k p.2 (Ne.symm hp)]

theorem dictUpdate_keys_nodup {α : Type} (e d : List (String × α))
    (h : (d.map Prod.fst).Nodup) : ((dictUpdate d e).map Prod.fst).Nodup := by
  induction e generalizing d with
  | nil => exact h
  | cons p rest ih => exact ih _ (dictInsert_keys_nodup _ _ _ h)


theorem dictInsert_lookup_isSome_elim {α : Type} (d : List (String × α)) (k k' : String)
    (v : α) (h : (dictLookup (dictInsert d k v) k').isSome) :
    k' = k ∨ (dictLookup d k').isSome := by
  by_cases hk : k' = k
  · exact Or.inl hk
  · rw [dictInsert_lookup_other d k k' v hk] at h
    exact Or.inr h

/-! ### Claim theorems -/

/-- C5: `is_valid` tests only the final dot-separated segment of the name and
returns true iff (excluded is empty or the segment is not in excluded) and
(included is empty or the segment is in included); with both sets empty every
name passes, and a segment present in both sets is rejected. -/
theorem c5_filter_characterization :
    (∀ included excluded name, is_valid_str included excluded name = true ↔
       ((excluded = [] ∨ last_segment name ∉ excluded) ∧
        (included = [] ∨ last_segment name ∈ included))) ∧
    (∀ name, is_valid_str [] [] name = true) ∧
    (∀ included excluded name,
       last_segment name ∈ included → last_segment name ∈ excluded →
       is_valid_str included excluded name = false) := by
  have hmain : ∀ included excluded name, is_valid_str included excluded name = true ↔
      ((excluded = [] ∨ last_segment name ∉ excluded) ∧
       (included = [] ∨ last_segment name ∈ included)) := by
    intro included excluded name
    cases excluded with
    | nil =>
      cases included with
      | nil => simp [is_valid_str]
      | cons a as => simp [is_valid_str]
    | cons b bs =>
      cases included with
      | nil => simp [is_valid_str]
      | cons a as => simp [is_valid_str]
  refine ⟨hmain, ?_, ?_⟩
  · intro name
    exact (hmain [] [] name).mpr ⟨Or.inl rfl, Or.inl rfl⟩
  · intro included excluded name hin hex
    cases h : is_valid_str included excluded name
    · rfl
    · rcases (hmain included excluded name).mp h with ⟨hexc, _⟩
      rcases hexc with h1 | h1
      · rw [h1] at hex; simp at hex
      · exact absurd hex h1

/-- C5 witness: with both sets empty, a dotted name passes the filter. -/
theorem c5_filter_characterization_witness : is_valid_str [] [] "a.b" = true :=
  (c5_filter_characterization.1 [] [] "a.b").mpr ⟨Or.inl rfl, Or.inl rfl⟩

/-- C6: evaluation of the code at the failing input.  The source passes the
hybrid_property descriptor object itself to the validator, whose first step
is `column.split('.')`; rendering any model with a hybrid property therefore
raises AttributeError instead of producing the `"hybrid"` attribute entry. -/
theorem c6_hybrid_filter_crash :
    class_render c6_meta "people" "bp" [] [] =
      Except.error "AttributeError: hybrid_property object has no attribute split" ∧
    c6_meta.hybrids = [⟨"full_name"⟩] :=
  ⟨rfl, rfl⟩

/-- C1 counterexample: resolving inheritance for child `C` (parent `P`) where
both define attribute `x` keeps the parent's value `"string"`, not the
child's `"integer"` — the merge is `child.update(parent)`, so the parent
overwrites the child on collision, contrary to the claim. -/
theorem c1_counterexample :
    (schemaLookup (resolve_inheritance "C" ⟨"kind", "P", "c"⟩
        [("P", c1_parent), ("C", c1_child)]) "C").map
      (fun d => dictLookup d.attributes "x") = some (some "string") ∧
    dictLookup c1_child.attributes "x" = some "integer" ∧
    dictLookup c1_parent.attributes "x" = some "string" ∧
    ("string" : String) ≠ "integer" :=
  ⟨rfl, rfl, rfl, by decide⟩

/-- C2 counterexample: with the three-level chain registered in the order
child, parent, grandparent, composition completes with `C` missing the
grandparent attribute `g`, while `G` itself (and the middle model `P`) carry
it — a partially-merged result, so the claimed order-independence fails. -/
theorem c2_counterexample :
    (schemaLookup (data_model_render false
        [plainInput c2_c, plainInput c2_p, plainInput c2_g]) "C").map
      (fun d => (dictLookup d.attributes "g").isSome) = some false ∧
    (schemaLookup (data_model_render false
        [plainInput c2_c, plainInput c2_p, plainInput c2_g]) "G").map
      (fun d => (dictLookup d.attributes "g").isSome) = some true ∧
    (schemaLookup (data_model_render false
        [plainInput c2_c, plainInput c2_p, plainInput c2_g]) "P").map
      (fun d => (dictLookup d.attributes "g").isSome) = some true ∧
    (schemaLookup (data_model_render false
        [plainInput c2_c, plainInput c2_p, plainInput c2_g]) "C").map
      (fun d => (dictLookup d.attributes "p").isSome) = some true :=
  ⟨rfl, rfl, rfl, rfl⟩

/-- C3 counterexample: a model whose table column is named `parent` while its
relationship attribute is also `parent` renders with that name in both the
attributes and the relations mapping — the key sets are not disjoint. -/
theorem c3_counterexample :
    (schemaLookup (data_model_render false [plainInput c3_meta]) "Child").map
      (fun d => ((dictLookup d.attributes "parent").isSome,
                 (dictLookup d.relations "parent").isSome)) = some (true, true) :=
  rfl

/-- C8 counterexample: a MANYTOONE relationship with no reciprocal declared
still renders with a `backref` key (value None), and an operation with no
variadic parameters still renders with `argsvar` and `kwargsvar` keys
(value None) — the keys are not omitted when inapplicable. -/
theorem c8_counterexample :
    render_relation_entry ⟨"boss", "MANYTOONE", false, "Boss", Option.none, ["boss_id"]⟩ =
      Except.ok (PyVal.dict
        [("foreign_model", PyVal.str "Boss"), ("relation_type", PyVal.str "MANYTOONE"),
         ("backref", PyVal.none), ("local_column", PyVal.str "boss_id")]) ∧
    dictLookup (method_entry
        [⟨"self", ParamKind.normal, false⟩, ⟨"msg", ParamKind.normal, false⟩]) "argsvar" =
      some PyVal.none ∧
    dictLookup (method_entry
        [⟨"self", ParamKind.normal, false⟩, ⟨"msg", ParamKind.normal, false⟩]) "kwargsvar" =
      some PyVal.none :=
  ⟨rfl, rfl, rfl⟩

/-- C9 counterexample: after registering Child (identity `a`, parent `P`),
then `P`, then re-registering Child with a changed configuration (identity
`b`), the shared polymorphic_info still holds the stale identity `a`, and
`P`'s already-rendered descriptor still shows only `{a: Child}` — stale
parent/child links survive re-registration. -/
theorem c9_counterexample :
    state_poly_info c9_st3 = [("P", [("a", "Child"), ("b", "Child")])] ∧
    (state_model c9_st3 "P").map (fun d => d.polymorphic) =
      some (some ⟨Option.none, Option.none, some "kind", some [("a", "Child")]⟩) ∧
    c9_child_v2.polymorphic_identity = some "b" ∧
    (state_model c9_st3 "Child").map (fun d => d.attributes.map Prod.fst) = some ["c2"] ∧
    ("a" : String) ≠ "b" :=
  ⟨rfl, rfl, rfl, rfl, by decide⟩

/-- C10 counterexample: Employee declares a polymorphic identity and has no
eligible parent base, yet after composition with its child Manager its
descriptor does carry a polymorphic entry (the parent-side `on` and
`identities` keys) — so the claim that its descriptor carries no polymorphic
entry at all fails. -/
theorem c10_counterexample :
    flag_inheritance_models c10_emp = Except.ok Option.none ∧
    c10_emp.polymorphic_identity = some "employee" ∧
    (schemaLookup (data_model_render false
        [plainInput c10_emp, plainInput c10_mgr]) "Employee").map
      (fun d => d.polymorphic) =
      some (some ⟨Option.none, Option.none, some "type", some [("manager", "Manager")]⟩) :=
  ⟨rfl, rfl, rfl⟩

/-- Unfolding equation for `resolve_inheritance` when parent and child are
both present and distinct: the child entry receives the `update`-merged
attribute and relation dicts plus a fresh `{'parent': ...}` polymorphic dict,
then the parent entry's polymorphic dict gains `on` and the identity entry. -/
theorem resolve_inheritance_eq (dm : List (String × ModelDescriptor)) (model : String)
    (inh : PolyFlag) (cd pd : ModelDescriptor)
    (hcd : dictLookup dm model = some cd) (hpd : dictLookup dm inh.parent = some pd)
    (hne : model ≠ inh.parent) :
    resolve_inheritance model inh dm =
      Except.ok (dictInsert (dictInsert dm model
        { cd with
          attributes := dictUpdate cd.attributes pd.attributes,
          relations := dictUpdate cd.relations pd.relations,
          polymorphic := some { parent := some inh.parent, identity := Option.none,
                                on_col := Option.none, identities := Option.none } })
        inh.parent
        { pd with
          polymorphic := some { pd.polymorphic.getD emptyPoly with
                                on_col := some inh.on_col,
                                identities := some (dictInsert ((pd.polymorphic.getD emptyPoly).identities.getD []) inh.identity model) } }) := by
  unfold resolve_inheritance
  rw [hpd, hcd]
  simp only
  rw [dictInsert_lookup_other dm model inh.parent _ (Ne.symm hne), hpd]
  rfl

/-- C1 amended (the claim corrected): the merge in `resolve_inheritance` is
`child.update(parent)` — it extends the child's attributes and relations
with all parent entries, but on every key defined on both, the composed
schema keeps the PARENT's value; the child keeps its own value only for keys
the parent does not define. -/
theorem c1_parent_wins_on_collision (dm : List (String × ModelDescriptor)) (model : String)
    (inh : PolyFlag) (cd pd : ModelDescriptor)
    (hcd : dictLookup dm model = some cd) (hpd : dictLookup dm inh.parent = some pd)
    (hne : model ≠ inh.parent)
    (hnda : (pd.attributes.map Prod.fst).Nodup)
    (hndr : (pd.relations.map Prod.fst).Nodup) :
    ∀ k,
      (schemaLookup (resolve_inheritance model inh dm) model).map
          (fun d => dictLookup d.attributes k) =
        some (match dictLookup pd.attributes k with
              | some v => some v
              | Option.none => dictLookup cd.attributes k) ∧
      (schemaLookup (resolve_inheritance model inh dm) model).map
          (fun d => dictLookup d.relations k) =
        some (match dictLookup pd.relations k with
              | some v => some v
              | Option.none => dictLookup cd.relations k) := by
  intro k
  rw [resolve_inheritance_eq dm model inh cd pd hcd hpd hne]
  simp only [schemaLookup]
  rw [dictInsert_lookup_other _ inh.parent model _ hne, dictInsert_lookup_self]
  simp only [Option.map_some']
  constructor
  · rw [dictUpdate_lookup_of_nodup _ _ _ hnda]
    cases dictLookup pd.attributes k <;> rfl
  · rw [dictUpdate_lookup_of_nodup _ _ _ hndr]
    cases dictLookup pd.relations k <;> rfl

/-- C1 witness: at the concrete collision the composed child attribute takes
the parent's value. -/
theorem c1_parent_wins_on_collision_witness :
    (schemaLookup (resolve_inheritance "C" ⟨"kind", "P", "c"⟩
        [("P", c1_parent), ("C", c1_child)]) "C").map
      (fun d => dictLookup d.attributes "x") = some (some "string") :=
  (c1_parent_wins_on_collision [("P", c1_parent), ("C", c1_child)] "C"
    ⟨"kind", "P", "c"⟩ c1_child c1_parent rfl rfl (by decide) (by decide) (by decide) "x").1

/-- C2 amended (the claim corrected): transitivity holds only when the middle
model is resolved before the child (which the composition does exactly when
the parent precedes the child in the input collection): if the chain is
resolved parent-first, the child's attributes contain every grandparent
attribute.  In the reverse order composition yields a partially-merged
result (see the counterexample). -/
theorem c2_transitivity_requires_parent_first
    (dm dm1 dm2 : List (String × ModelDescriptor)) (cN : String)
    (gD pD cD : ModelDescriptor) (inhP inhC : PolyFlag)
    (h1 : cN ≠ inhC.parent) (h2 : cN ≠ inhP.parent) (h3 : inhC.parent ≠ inhP.parent)
    (hg : dictLookup dm inhP.parent = some gD)
    (hp : dictLookup dm inhC.parent = some pD)
    (hc : dictLookup dm cN = some cD)
    (hr1 : resolve_inheritance inhC.parent inhP dm = Except.ok dm1)
    (hr2 : resolve_inheritance cN inhC dm1 = Except.ok dm2) :
    ∀ k, (dictLookup gD.attributes k).isSome →
      (dictLookup dm2 cN).map (fun d => (dictLookup d.attributes k).isSome) = some true := by
  intro k hk
  rw [resolve_inheritance_eq dm inhC.parent inhP pD gD hp hg h3] at hr1
  injection hr1 with hdm1
  have hlc : dictLookup dm1 cN = some cD := by
    rw [← hdm1, dictInsert_lookup_other _ _ _ _ h2, dictInsert_lookup_other _ _ _ _ h1]
    exact hc
  have hlp : dictLookup dm1 inhC.parent = some
      { pD with
        attributes := dictUpdate pD.attributes gD.attributes,
        relations := dictUpdate pD.relations gD.relations,
        polymorphic := some { parent := some inhP.parent, identity := Option.none,
                              on_col := Option.none, identities := Option.none } } := by
    rw [← hdm1, dictInsert_lookup_other _ _ _ _ h3, dictInsert_lookup_self]
  rw [resolve_inheritance_eq dm1 cN inhC cD _ hlc hlp h1] at hr2
  injection hr2 with hdm2
  rw [← hdm2, dictInsert_lookup_other _ _ _ _ h1, dictInsert_lookup_self]
  simp only [Option.map_some']
  have hmem : k ∈ gD.attributes.map Prod.fst := (dictLookup_isSome_iff _ _).mp hk
  have h5 : (dictLookup (dictUpdate pD.attributes gD.attributes) k).isSome :=
    dictUpdate_lookup_isSome_right _ _ _ hmem
  have h6 : k ∈ (dictUpdate pD.attributes gD.attributes).map Prod.fst :=
    (dictLookup_isSome_iff _ _).mp h5
  have h7 : (dictLookup (dictUpdate cD.attributes
      (dictUpdate pD.attributes gD.attributes)) k).isSome :=
    dictUpdate_lookup_isSome_right _ _ _ h6
  simp only [h7]

/-- C2 witness: in the parent-first resolution order the concrete child does
contain the grandparent's attribute. -/
theorem c2_transitivity_requires_parent_first_witness :
    (dictLookup c2_w_dm2 "C").map (fun d => (dictLookup d.attributes "g").isSome) = some true :=
  c2_transitivity_requires_parent_first c2_w_dm c2_w_dm1 c2_w_dm2 "C"
    c2_w_g c2_w_p c2_w_c ⟨"kind", "G", "p"⟩ ⟨"kind", "P", "c"⟩
    (by decide) (by decide) (by decide) rfl rfl rfl rfl rfl "g" rfl

/-- Entries at other keys survive the rest of the relations loop. -/
theorem render_relations_loop_preserve (valid : String → Bool) :
    ∀ (l : List RelMeta) (fk fk' : PyDict) (key : String) (v : PyVal),
    render_relations_loop valid fk l = Except.ok fk' →
    (∀ r ∈ l, r.key ≠ key) →
    dictLookup fk key = some v → dictLookup fk' key = some v := by
  intro l
  induction l with
  | nil =>
    intro fk fk' key v h hk hv
    cases h
    exact hv
  | cons r rest ih =>
    intro fk fk' key v h hk hv
    by_cases hval : valid r.key
    · simp only [render_relations_loop, hval, if_true] at h
      cases he : render_relation_entry r with
      | error e => rw [he] at h; cases h
      | ok w =>
        rw [he] at h
        refine ih _ _ _ _ h (fun q hq => hk q (List.mem_cons_of_mem _ hq)) ?_
        rw [dictInsert_lookup_other _ _ _ _ (Ne.symm (hk r (List.mem_cons_self _ _)))]
        exact hv
    · simp only [render_relations_loop, hval, if_false] at h
      exact ih _ _ _ _ h (fun q hq => hk q (List.mem_cons_of_mem _ hq)) hv

/-- A relationship with a unique key that passes the filter ends up in the
final dict with exactly its rendered entry. -/
theorem render_relations_loop_finds (valid : String → Bool) :
    ∀ (l : List RelMeta) (fk fk' : PyDict) (rel : RelMeta) (v : PyVal),
    render_relations_loop valid fk l = Except.ok fk' →
    (l.map RelMeta.key).Nodup →
    rel ∈ l → valid rel.key = true →
    render_relation_entry rel = Except.ok v →
    dictLookup fk' rel.key = some v := by
  intro l
  induction l with
  | nil =>
    intro fk fk' rel v _ _ hmem
    simp at hmem
  | cons r rest ih =>
    intro fk fk' rel v h hnd hmem hval hent
    simp only [List.map_cons, List.nodup_cons] at hnd
    rcases List.mem_cons.mp hmem with heq | hmem2
    · subst heq
      simp only [render_relations_loop, hval, if_true] at h
      rw [hent] at h
      refine render_relations_loop_preserve valid rest _ _ _ _ h ?_ ?_
      · intro q hq hqk
        exact hnd.1 (hqk ▸ List.mem_map_of_mem RelMeta.key hq)
      · exact dictInsert_lookup_self _ _ _
    · by_cases hval2 : valid r.key
      · simp only [render_relations_loop, hval2, if_true] at h
        cases he : render_relation_entry r with
        | error e => rw [he] at h; cases h
        | ok w =>
          rw [he] at h
          exact ih _ _ _ _ h hnd.2 hmem2 hval hent
      · simp only [render_relations_loop, hval2, if_false] at h
        exact ih _ _ _ _ h hnd.2 hmem2 hval hent

/-- The `relation_type` stored by `render_relation_entry` is the normalized
direction. -/
theorem render_relation_entry_relation_type (rel : RelMeta) (v : PyVal)
    (h : render_relation_entry rel = Except.ok v) :
    relation_type_of v = some (PyVal.str
      (if rel.direction = "ONETOMANY" ∧ rel.uselist = false then "ONETOONE"
       else rel.direction)) := by
  unfold render_relation_entry at h
  by_cases hm : rel.direction = "MANYTOONE"
  · simp only [hm, if_true, if_pos] at h
    cases hh : rel.local_columns.head? with
    | none => rw [hh] at h; cases h
    | some c =>
      rw [hh] at h
      injection h with hv
      rw [← hv, hm]
      rfl
  · simp only [hm, if_false] at h
    injection h with hv
    rw [← hv]
    rfl

/-- C4: a direct relationship declared ONETOMANY with a scalar remote side
renders with relation_type ONETOONE; any other direct relationship keeps its
declared direction name. -/
theorem c4_scalar_onetomany_is_onetoone
    (m : ModelMeta) (valid : String → Bool) (fk : PyDict) (rel : RelMeta) (v : PyVal)
    (hnd : (m.relationships.map RelMeta.key).Nodup)
    (hmem : rel ∈ m.relationships)
    (hval : valid rel.key = true)
    (hok : render_relations m valid = Except.ok fk)
    (hent : render_relation_entry rel = Except.ok v) :
    dictLookup fk rel.key = some v ∧
    relation_type_of v = some (PyVal.str
      (if rel.direction = "ONETOMANY" ∧ rel.uselist = false then "ONETOONE"
       else rel.direction)) :=
  ⟨render_relations_loop_finds valid m.relationships [] fk rel v hok hnd hmem hval hent,
   render_relation_entry_relation_type rel v hent⟩

/-- C4 witness: the concrete ONETOMANY/scalar relationship renders as
ONETOONE. -/
theorem c4_scalar_onetomany_is_onetoone_witness :
    dictLookup [("kids", PyVal.dict
        [("foreign_model", PyVal.str "Kid"), ("relation_type", PyVal.str "ONETOONE"),
         ("backref", PyVal.str "parent")])] "kids" =
      some (PyVal.dict
        [("foreign_model", PyVal.str "Kid"), ("relation_type", PyVal.str "ONETOONE"),
         ("backref", PyVal.str "parent")]) ∧
    relation_type_of (PyVal.dict
        [("foreign_model", PyVal.str "Kid"), ("relation_type", PyVal.str "ONETOONE"),
         ("backref", PyVal.str "parent")]) = some (PyVal.str "ONETOONE") :=
  c4_scalar_onetomany_is_onetoone c4_w_meta (is_valid_str [] [])
    [("kids", PyVal.dict
        [("foreign_model", PyVal.str "Kid"), ("relation_type", PyVal.str "ONETOONE"),
         ("backref", PyVal.str "parent")])]
    ⟨"kids", "ONETOMANY", false, "Kid", some "parent", []⟩
    (PyVal.dict
        [("foreign_model", PyVal.str "Kid"), ("relation_type", PyVal.str "ONETOONE"),
         ("backref", PyVal.str "parent")])
    (by decide) (by decide) rfl rfl rfl

/-- Entries at other names survive the rest of the proxies loop, in both the
attribute and the relation dict. -/
theorem render_proxies_loop_preserve :
    ∀ (l : List ProxyMeta) (acc : (List (String × String)) × PyDict) (name : String),
    (∀ q ∈ l, q.name ≠ name) →
    dictLookup (render_proxies_loop acc l).1 name = dictLookup acc.1 name ∧
    dictLookup (render_proxies_loop acc l).2 name = dictLookup acc.2 name := by
  intro l
  induction l with
  | nil => intro acc name _; exact ⟨rfl, rfl⟩
  | cons q rest ih =>
    intro acc name hk
    have hq : q.name ≠ name := hk q (List.mem_cons_self _ _)
    have hrest : ∀ q' ∈ rest, q'.name ≠ name :=
      fun q' hq' => hk q' (List.mem_cons_of_mem _ hq')
    cases hr : q.remote with
    | relationship cls =>
      simp only [render_proxies_loop, hr]
      exact ⟨(ih _ name hrest).1,
             ((ih _ name hrest).2).trans (dictInsert_lookup_other _ _ _ _ (Ne.symm hq))⟩
    | column t =>
      simp only [render_proxies_loop, hr]
      exact ⟨((ih _ name hrest).1).trans (dictInsert_lookup_other _ _ _ _ (Ne.symm hq)),
             (ih _ name hrest).2⟩
    | otherProperty =>
      simp only [render_proxies_loop, hr]
      exact ih _ name hrest
    | noProperty =>
      simp only [render_proxies_loop, hr]
      exact ih _ name hrest

/-- A proxy with a unique name is rendered into the matching dict. -/
theorem render_proxies_loop_finds :
    ∀ (l : List ProxyMeta) (acc : (List (String × String)) × PyDict) (p : ProxyMeta),
    (l.map ProxyMeta.name).Nodup → p ∈ l →
    (∀ cls, p.remote = ProxyRemote.relationship cls →
       dictLookup (render_proxies_loop acc l).2 p.name =
         some (PyVal.dict
           [("foreign_model", PyVal.str cls),
            ("relation_type", PyVal.str (if p.scalar then "MANYTOONE" else "ONETOMANY")),
            ("is_proxy", PyVal.bool true)])) ∧
    (∀ t, p.remote = ProxyRemote.column t →
       dictLookup (render_proxies_loop acc l).1 p.name = some t.toLower) := by
  intro l
  induction l with
  | nil => intro _ p _ hmem; simp at hmem
  | cons q rest ih =>
    intro acc p hnd hmem
    simp only [List.map_cons, List.nodup_cons] at hnd
    have hrest_ne : ∀ q' ∈ rest, q'.name ≠ q.name := by
      intro q' hq' he
      exact hnd.1 (he ▸ List.mem_map_of_mem ProxyMeta.name hq')
    rcases List.mem_cons.mp hmem with heq | hmem2
    · subst heq
      constructor
      · intro cls hr
        simp only [render_proxies_loop, hr]
        rw [(render_proxies_loop_preserve rest _ p.name hrest_ne).2]
        exact dictInsert_lookup_self _ _ _
      · intro t hr
        simp only [render_proxies_loop, hr]
        rw [(render_proxies_loop_preserve rest _ p.name hrest_ne).1]
        exact dictInsert_lookup_self _ _ _
    · cases hr : q.remote with
      | relationship cls =>
        simp only [render_proxies_loop, hr]
        exact ih _ p hnd.2 hmem2
      | column t =>
        simp only [render_proxies_loop, hr]
        exact ih _ p hnd.2 hmem2
      | otherProperty =>
        simp only [render_proxies_loop, hr]
        exact ih _ p hnd.2 hmem2
      | noProperty =>
        simp only [render_proxies_loop, hr]
        exact ih _ p hnd.2 hmem2

/-- C7: an association proxy with an inspectable remote relationship renders
as a relation with is_proxy true, MANYTOONE when the proxy exposes a single
object and ONETOMANY otherwise, and with neither backref nor local_column;
a proxy whose remote is a plain column renders as a scalar attribute with
the column's lowercased type tag. -/
theorem c7_proxy_classification (m : ModelMeta) (ad : List (String × String)) (fk : PyDict)
    (p : ProxyMeta)
    (hnd : (m.proxies.map ProxyMeta.name).Nodup)
    (hmem : p ∈ m.proxies) :
    (∀ cls, p.remote = ProxyRemote.relationship cls →
       dictLookup (render_association_proxies m ad fk).2 p.name =
         some (PyVal.dict
           [("foreign_model", PyVal.str cls),
            ("relation_type", PyVal.str (if p.scalar then "MANYTOONE" else "ONETOMANY")),
            ("is_proxy", PyVal.bool true)]) ∧
       dictLookup [("foreign_model", PyVal.str cls),
            ("relation_type", PyVal.str (if p.scalar then "MANYTOONE" else "ONETOMANY")),
            ("is_proxy", PyVal.bool true)] "backref" = Option.none ∧
       dictLookup [("foreign_model", PyVal.str cls),
            ("relation_type", PyVal.str (if p.scalar then "MANYTOONE" else "ONETOMANY")),
            ("is_proxy", PyVal.bool true)] "local_column" = Option.none) ∧
    (∀ t, p.remote = ProxyRemote.column t →
       dictLookup (render_association_proxies m ad fk).1 p.name = some t.toLower) := by
  have hsub : List.Sublist
      ((m.proxies.filter (fun q =>
        match q.remote with
        | ProxyRemote.noProperty => false
        | _ => true)).map ProxyMeta.name)
      (m.proxies.map ProxyMeta.name) :=
    (List.filter_sublist _).map _
  have hnd2 := hnd.sublist hsub
  constructor
  · intro cls hr
    have hmem2 : p ∈ m.proxies.filter (fun q =>
        match q.remote with
        | ProxyRemote.noProperty => false
        | _ => true) := by
      rw [List.mem_filter]
      exact ⟨hmem, by rw [hr]⟩
    exact ⟨(render_proxies_loop_finds _ (ad, fk) p hnd2 hmem2).1 cls hr, rfl, rfl⟩
  · intro t hr
    have hmem2 : p ∈ m.proxies.filter (fun q =>
        match q.remote with
        | ProxyRemote.noProperty => false
        | _ => true) := by
      rw [List.mem_filter]
      exact ⟨hmem, by rw [hr]⟩
    exact (render_proxies_loop_finds _ (ad, fk) p hnd2 hmem2).2 t hr

/-- C7 witness: the concrete relationship-backed proxy renders as an
is_proxy ONETOMANY relation without backref or local_column, and the
column-backed proxy renders as a scalar attribute with the lowercased type
tag. -/
theorem c7_proxy_classification_witness :
    dictLookup (render_association_proxies c7_w_meta [] []).2 "tags" =
      some (PyVal.dict
        [("foreign_model", PyVal.str "Tag"),
         ("relation_type", PyVal.str "ONETOMANY"),
         ("is_proxy", PyVal.bool true)]) ∧
    dictLookup (render_association_proxies c7_w_meta [] []).1 "score" =
      some ("Integer".toLower) :=
  ⟨((c7_proxy_classification c7_w_meta [] []
      ⟨"tags", false, ProxyRemote.relationship "Tag"⟩ (by decide) (by decide)).1
      "Tag" rfl).1,
   (c7_proxy_classification c7_w_meta [] []
      ⟨"score", true, ProxyRemote.column "Integer"⟩ (by decide) (by decide)).2
      "Integer" rfl⟩

/-- The two variadic keys are always present in a method descriptor, holding
None exactly when no variadic parameter was classified. -/
theorem method_entry_var_keys (ps : List ParamMeta) :
    dictLookup (method_entry ps) "argsvar" = some (optStr (compile_params ps).2.2.1) ∧
    dictLookup (method_entry ps) "kwargsvar" = some (optStr (compile_params ps).2.2.2) :=
  ⟨rfl, rfl⟩

/-- Every dict stored by the method-compilation loop carries the argsvar and
kwargsvar keys. -/
theorem compile_method_loop_keys (ii : Bool) :
    ∀ (ms : List MethodMeta) (acc : PyDict) (name : String) (d : PyDict),
    (∀ n0 d0, dictLookup acc n0 = some (PyVal.dict d0) →
      (dictLookup d0 "argsvar").isSome ∧ (dictLookup d0 "kwargsvar").isSome) →
    dictLookup (compile_method_loop ii acc ms) name = some (PyVal.dict d) →
    (dictLookup d "argsvar").isSome ∧ (dictLookup d "kwargsvar").isSome := by
  intro ms
  induction ms with
  | nil =>
    intro acc name d hacc h
    exact hacc name d h
  | cons mm rest ih =>
    intro acc name d hacc h
    simp only [compile_method_loop] at h
    split at h
    · exact ih _ _ _ hacc h
    · split at h
      · exact ih _ _ _ hacc h
      · refine ih _ _ _ ?_ h
        intro n0 d0 h0
        rcases dictInsert_lookup_cases _ _ _ _ _ h0 with ⟨_, hval⟩ | hold
        · injection hval with hd0
          subst hd0
          refine ⟨?_, ?_⟩
          · rw [(method_entry_var_keys mm.params).1]; rfl
          · rw [(method_entry_var_keys mm.params).2]; rfl
        · exact hacc n0 d0 hold

/-- C8 amended (the claim corrected): the optional keys are NOT omitted.  A
direct relation descriptor always contains a `backref` key whose value is
the declared reciprocal or None, and every operation descriptor always
contains `argsvar` and `kwargsvar` keys whose values are the declared
variadic parameter names or None.  (Only `local_column`, `is_proxy` and
`polymorphic` are conditionally omitted.) -/
theorem c8_optional_keys_always_present :
    (∀ (rel : RelMeta) (d : PyDict), render_relation_entry rel = Except.ok (PyVal.dict d) →
       dictLookup d "backref" = some (optStr rel.back_populates)) ∧
    (∀ ps : List ParamMeta,
       dictLookup (method_entry ps) "argsvar" = some (optStr (compile_params ps).2.2.1) ∧
       dictLookup (method_entry ps) "kwargsvar" = some (optStr (compile_params ps).2.2.2)) ∧
    (∀ (ii : Bool) (ms : List MethodMeta) (name : String) (d : PyDict),
       dictLookup (compile_method_list ii ms) name = some (PyVal.dict d) →
       (dictLookup d "argsvar").isSome ∧ (dictLookup d "kwargsvar").isSome) := by
  refine ⟨?_, method_entry_var_keys, ?_⟩
  · intro rel d h
    unfold render_relation_entry at h
    by_cases hm : rel.direction = "MANYTOONE"
    · simp only [hm, if_true, if_pos] at h
      cases hh : rel.local_columns.head? with
      | none => rw [hh] at h; cases h
      | some c =>
        rw [hh] at h
        injection h with hv
        injection hv with hd
        rw [← hd]
        rfl
    · simp only [hm, if_false] at h
      injection h with hv
      injection hv with hd
      rw [← hd]
      rfl
  · intro ii ms name d h
    exact compile_method_loop_keys ii ms [] name d (by intro n0 d0 h0; cases h0) h

/-- C8 witness: the concrete reciprocal-free relation carries a null-valued
backref key, and the concrete variadic-free operation carries a null-valued
argsvar key. -/
theorem c8_optional_keys_always_present_witness :
    dictLookup
      [("foreign_model", PyVal.str "Boss"), ("relation_type", PyVal.str "MANYTOONE"),
       ("backref", PyVal.none), ("local_column", PyVal.str "boss_id")] "backref" =
      some PyVal.none ∧
    dictLookup (method_entry
      [⟨"self", ParamKind.normal, false⟩, ⟨"msg", ParamKind.normal, false⟩]) "argsvar" =
      some PyVal.none :=
  ⟨c8_optional_keys_always_present.1
      ⟨"boss", "MANYTOONE", false, "Boss", Option.none, ["boss_id"]⟩
      [("foreign_model", PyVal.str "Boss"), ("relation_type", PyVal.str "MANYTOONE"),
       ("backref", PyVal.none), ("local_column", PyVal.str "boss_id")] rfl,
   (c8_optional_keys_always_present.2.1
      [⟨"self", ParamKind.normal, false⟩, ⟨"msg", ParamKind.normal, false⟩]).1⟩

/-- C9 amended (the claim corrected): re-registering a model fully replaces
its own data_model entry — attributes, relations and methods reflect only
the new configuration — but the shared polymorphic_info registry is never
pruned: every identity entry recorded before the re-registration is still
present afterwards, so stale parent/child identity links (and the parent's
already-rendered descriptor) survive. -/
theorem c9_replacement_and_stale_links (ii : Bool) (st : DMState) (mi : ModelInput)
    (st' : DMState) (base : ModelDescriptor)
    (hcr : class_render mi.meta mi.collection_name mi.bp_name mi.included mi.excluded =
      Except.ok base)
    (hreg : register_model ii st mi = Except.ok st') :
    (dictLookup st'.data_model mi.meta.name).map (fun d => d.attributes) =
      some base.attributes ∧
    (dictLookup st'.data_model mi.meta.name).map (fun d => d.relations) =
      some base.relations ∧
    (dictLookup st'.data_model mi.meta.name).map (fun d => d.methods) =
      some (compile_method_list ii mi.meta.methods_meta) ∧
    (∀ p i, (poly_info_lookup st.polymorphic_info p i).isSome →
       (poly_info_lookup st'.polymorphic_info p i).isSome) := by
  unfold register_model at hreg
  rw [hcr] at hreg
  simp only at hreg
  cases hpoly : render_polymorphic mi.meta
      ((dictLookup st.polymorphic_info mi.meta.name).getD []) with
  | error e => rw [hpoly] at hreg; cases hreg
  | ok poly =>
    rw [hpoly] at hreg
    injection hreg with hst
    subst hst
    refine ⟨?_, ?_, ?_, ?_⟩
    · simp only [dictInsert_lookup_self, Option.map_some']
      split <;> rfl
    · simp only [dictInsert_lookup_self, Option.map_some']
      split <;> rfl
    · simp only [dictInsert_lookup_self, Option.map_some']
      split <;> rfl
    · intro p i hsome
      obtain ⟨pp, pidv, po, pids⟩ := poly
      cases pp with
      | none => exact hsome
      | some parent =>
        cases pidv with
        | none => exact hsome
        | some identity =>
          simp only [poly_info_lookup] at hsome ⊢
          by_cases hp : p = parent
          · subst hp
            cases hlp : dictLookup st.polymorphic_info p with
            | none => rw [hlp] at hsome; simp at hsome
            | some dp =>
              rw [hlp] at hsome
              rw [dictInsert_lookup_self]
              exact dictInsert_lookup_isSome_mono _ _ _ _ hsome
          · rw [dictInsert_lookup_other _ _ _ _ hp]
            exact hsome

/-- C9 witness: registering the child anew on a state that already records
identity `a` for parent `P` yields a fresh own entry while the stale
identity entry is still present. -/
theorem c9_replacement_and_stale_links_witness :
    (dictLookup c9_w_st2.data_model "Child").map (fun d => d.attributes) = some [] ∧
    (poly_info_lookup c9_w_st2.polymorphic_info "P" "a").isSome := by
  have h := c9_replacement_and_stale_links false c9_w_st c9_w_input c9_w_st2 c9_w_base rfl rfl
  exact ⟨h.1, h.2.2.2 "P" "a" rfl⟩

/-- Keys of the rendered attribute dict come from the accumulator or the
column names. -/
theorem render_attributes_loop_keys (valid : String → Bool) :
    ∀ (cols : List ColumnMeta) (acc : List (String × String)) (k : String),
    (dictLookup (render_attributes_loop valid acc cols) k).isSome →
    (dictLookup acc k).isSome ∨ k ∈ cols.map ColumnMeta.name := by
  intro cols
  induction cols with
  | nil => intro acc k h; exact Or.inl h
  | cons c rest ih =>
    intro acc k h
    by_cases hv : valid c.name
    · simp only [render_attributes_loop, hv, if_true] at h
      rcases ih _ _ h with h1 | h1
      · rcases dictInsert_lookup_isSome_elim _ _ _ _ h1 with h2 | h2
        · exact Or.inr (by simp [h2])
        · exact Or.inl h2
      · exact Or.inr (by simp [h1])
    · simp only [render_attributes_loop, hv, if_false] at h
      rcases ih _ _ h with h1 | h1
      · exact Or.inl h1
      · exact Or.inr (by simp [h1])

/-- Keys of the rendered relations dict come from the accumulator or the
relationship keys. -/
theorem render_relations_loop_keys (valid : String → Bool) :
    ∀ (l : List RelMeta) (fk fk' : PyDict) (k : String),
    render_relations_loop valid fk l = Except.ok fk' →
    (dictLookup fk' k).isSome →
    (dictLookup fk k).isSome ∨ k ∈ l.map RelMeta.key := by
  intro l
  induction l with
  | nil =>
    intro fk fk' k hok h
    cases hok
    exact Or.inl h
  | cons r rest ih =>
    intro fk fk' k hok h
    by_cases hv : valid r.key
    · simp only [render_relations_loop, hv, if_true] at hok
      cases he : render_relation_entry r with
      | error e => rw [he] at hok; cases hok
      | ok w =>
        rw [he] at hok
        rcases ih _ _ _ hok h with h1 | h1
        · rcases dictInsert_lookup_isSome_elim _ _ _ _ h1 with h2 | h2
          · exact Or.inr (by simp [h2])
          · exact Or.inl h2
        · exact Or.inr (by simp [h1])
    · simp only [render_relations_loop, hv, if_false] at hok
      rcases ih _ _ _ hok h with h1 | h1
      · exact Or.inl h1
      · exact Or.inr (by simp [h1])

/-- The hybrid loop only succeeds without touching its accumulator (the
validator raises on the first hybrid encountered). -/
theorem render_hybrid_loop_ok (included excluded : List String) :
    ∀ (l : List HybridMeta) (acc d : List (String × String)),
    render_hybrid_loop included excluded acc l = Except.ok d → d = acc := by
  intro l
  cases l with
  | nil =>
    intro acc d h
    cases h
    rfl
  | cons hh rest =>
    intro acc d h
    simp only [render_hybrid_loop, is_valid_dyn] at h
    cases h

/-- Keys added by the proxies loop to the attribute dict come from
column-valued proxies, and keys added to the relations dict from
relationship-valued proxies. -/
theorem render_proxies_loop_keys :
    ∀ (l : List ProxyMeta) (acc : (List (String × String)) × PyDict) (k : String),
    ((dictLookup (render_proxies_loop acc l).1 k).isSome →
       (dictLookup acc.1 k).isSome ∨
       ∃ p, p ∈ l ∧ p.name = k ∧ ∃ t, p.remote = ProxyRemote.column t) ∧
    ((dictLookup (render_proxies_loop acc l).2 k).isSome →
       (dictLookup acc.2 k).isSome ∨
       ∃ p, p ∈ l ∧ p.name = k ∧ ∃ cls, p.remote = ProxyRemote.relationship cls) := by
  intro l
  induction l with
  | nil =>
    intro acc k
    exact ⟨fun h => Or.inl h, fun h => Or.inl h⟩
  | cons q rest ih =>
    intro acc k
    cases hr : q.remote with
    | relationship cls =>
      constructor
      · intro h
        simp only [render_proxies_loop, hr] at h
        rcases (ih _ k).1 h with h1 | ⟨p, hp, hpk, hrem⟩
        · exact Or.inl h1
        · exact Or.inr ⟨p, List.mem_cons_of_mem _ hp, hpk, hrem⟩
      · intro h
        simp only [render_proxies_loop, hr] at h
        rcases (ih _ k).2 h with h1 | ⟨p, hp, hpk, hrem⟩
        · rcases dictInsert_lookup_isSome_elim _ _ _ _ h1 with h2 | h2
          · exact Or.inr ⟨q, List.mem_cons_self _ _, h2.symm, cls, hr⟩
          · exact Or.inl h2
        · exact Or.inr ⟨p, List.mem_cons_of_mem _ hp, hpk, hrem⟩
    | column t =>
      constructor
      · intro h
        simp only [render_proxies_loop, hr] at h
        rcases (ih _ k).1 h with h1 | ⟨p, hp, hpk, hrem⟩
        · rcases dictInsert_lookup_isSome_elim _ _ _ _ h1 with h2 | h2
          · exact Or.inr ⟨q, List.mem_cons_self _ _, h2.symm, t, hr⟩
          · exact Or.inl h2
        · exact Or.inr ⟨p, List.mem_cons_of_mem _ hp, hpk, hrem⟩
      · intro h
        simp only [render_proxies_loop, hr] at h
        rcases (ih _ k).2 h with h1 | ⟨p, hp, hpk, hrem⟩
        · exact Or.inl h1
        · exact Or.inr ⟨p, List.mem_cons_of_mem _ hp, hpk, hrem⟩
    | otherProperty =>
      constructor
      · intro h
        simp only [render_proxies_loop, hr] at h
        rcases (ih _ k).1 h with h1 | ⟨p, hp, hpk, hrem⟩
        · exact Or.inl h1
        · exact Or.inr ⟨p, List.mem_cons_of_mem _ hp, hpk, hrem⟩
      · intro h
        simp only [render_proxies_loop, hr] at h
        rcases (ih _ k).2 h with h1 | ⟨p, hp, hpk, hrem⟩
        · exact Or.inl h1
        · exact Or.inr ⟨p, List.mem_cons_of_mem _ hp, hpk, hrem⟩
    | noProperty =>
      constructor
      · intro h
        simp only [render_proxies_loop, hr] at h
        rcases (ih _ k).1 h with h1 | ⟨p, hp, hpk, hrem⟩
        · exact Or.inl h1
        · exact Or.inr ⟨p, List.mem_cons_of_mem _ hp, hpk, hrem⟩
      · intro h
        simp only [render_proxies_loop, hr] at h
        rcases (ih _ k).2 h with h1 | ⟨p, hp, hpk, hrem⟩
        · exact Or.inl h1
        · exact Or.inr ⟨p, List.mem_cons_of_mem _ hp, hpk, hrem⟩

/-- A successfully rendered descriptor draws its attribute keys from the
model's scalar-side names and its relation keys from the relation-side
names. -/
theorem class_render_keys (A R : String → Prop) (m : ModelMeta)
    (cn bp : String) (inc exc : List String) (b : ModelDescriptor)
    (hA : meta_attr_names_in A m) (hR : meta_rel_names_in R m)
    (hok : class_render m cn bp inc exc = Except.ok b) :
    keys_bounded A R b := by
  unfold class_render at hok
  simp only at hok
  cases hfk : render_relations m (is_valid_str inc exc) with
  | error e => rw [hfk] at hok; cases hok
  | ok fk =>
    rw [hfk] at hok
    cases hhy : render_hybrid_properties m inc exc with
    | error e => rw [hhy] at hok; cases hok
    | ok hy =>
      rw [hhy] at hok
      simp only at hok
      have hy0 : hy = [] := render_hybrid_loop_ok inc exc m.hybrids [] hy hhy
      subst hy0
      injection hok with hb
      constructor
      · intro k hk
        rw [← hb] at hk
        simp only at hk
        rcases (render_proxies_loop_keys _ _ k).1 hk with h1 | ⟨p, hp, hpk, t, hrem⟩
        · rcases render_attributes_loop_keys (is_valid_str inc exc) m.columns [] k h1
            with h2 | h2
          · simp [dictLookup] at h2
          · rcases List.mem_map.mp h2 with ⟨c, hc, hck⟩
            exact hck ▸ hA.1 c hc
        · exact hpk ▸ hA.2.2 p (List.mem_filter.mp hp).1 t hrem
      · intro k hk
        rw [← hb] at hk
        simp only at hk
        rcases (render_proxies_loop_keys _ _ k).2 hk with h1 | ⟨p, hp, hpk, cls, hrem⟩
        · rcases render_relations_loop_keys (is_valid_str inc exc) m.relationships [] fk k
            hfk h1 with h2 | h2
          · simp [dictLookup] at h2
          · rcases List.mem_map.mp h2 with ⟨r, hr, hrk⟩
            exact hrk ▸ hR.1 r hr
        · exact hpk ▸ hR.2 p (List.mem_filter.mp hp).1 cls hrem

/-- Inserting a key-disciplined descriptor preserves the schema-wide
discipline. -/
theorem bounded_insert (A R : String → Prop) (dm : List (String × ModelDescriptor))
    (n : String) (v : ModelDescriptor)
    (hdm : ∀ n' d, dictLookup dm n' = some d → keys_bounded A R d)
    (hv : keys_bounded A R v) :
    ∀ n' d, dictLookup (dictInsert dm n v) n' = some d → keys_bounded A R d := by
  intro n' d h
  rcases dictInsert_lookup_cases _ _ _ _ _ h with ⟨_, hval⟩ | hold
  · exact hval ▸ hv
  · exact hdm n' d hold

/-- The update-merge of two key-disciplined dicts is key-disciplined. -/
theorem bounded_update {A : String → Prop} (d e : List (String × String))
    (hd : ∀ k, (dictLookup d k).isSome → A k)
    (he : ∀ k, (dictLookup e k).isSome → A k) :
    ∀ k, (dictLookup (dictUpdate d e) k).isSome → A k := by
  intro k h
  rcases dictUpdate_lookup_isSome_elim _ _ _ h with h1 | h1
  · exact hd k h1
  · exact he k ((dictLookup_isSome_iff _ _).mpr h1)

/-- Same statement at `PyVal`-valued dicts. -/
theorem bounded_update_py {R : String → Prop} (d e : PyDict)
    (hd : ∀ k, (dictLookup d k).isSome → R k)
    (he : ∀ k, (dictLookup e k).isSome → R k) :
    ∀ k, (dictLookup (dictUpdate d e) k).isSome → R k := by
  intro k h
  rcases dictUpdate_lookup_isSome_elim _ _ _ h with h1 | h1
  · exact hd k h1
  · exact he k ((dictLookup_isSome_iff _ _).mpr h1)

/-- One inheritance-resolution step preserves the schema-wide key
discipline. -/
theorem resolve_inheritance_bounded (A R : String → Prop) (model : String) (inh : PolyFlag)
    (dm dm2 : List (String × ModelDescriptor))
    (hok : resolve_inheritance model inh dm = Except.ok dm2)
    (hdm : ∀ n d, dictLookup dm n = some d → keys_bounded A R d) :
    ∀ n d, dictLookup dm2 n = some d → keys_bounded A R d := by
  unfold resolve_inheritance at hok
  cases hpd : dictLookup dm inh.parent with
  | none => rw [hpd] at hok; cases hok
  | some pd =>
    cases hcd : dictLookup dm model with
    | none => rw [hpd, hcd] at hok; cases hok
    | some cd =>
      rw [hpd, hcd] at hok
      simp only at hok
      have hcdB := hdm model cd hcd
      have hpdB := hdm inh.parent pd hpd
      have hmerge : keys_bounded A R
          { cd with
            attributes := dictUpdate cd.attributes pd.attributes,
            relations := dictUpdate cd.relations pd.relations,
            polymorphic := some { parent := some inh.parent, identity := Option.none,
                                  on_col := Option.none, identities := Option.none } } :=
        ⟨bounded_update _ _ hcdB.1 hpdB.1, bounded_update_py _ _ hcdB.2 hpdB.2⟩
      have hstep := bounded_insert A R dm model _ hdm hmerge
      by_cases hpm : inh.parent = model
      · rw [hpm, dictInsert_lookup_self] at hok
        simp only at hok
        injection hok with hdm2
        rw [← hdm2]
        rw [hpm] at hstep
        refine bounded_insert A R _ _ _ hstep ?_
        exact ⟨hmerge.1, hmerge.2⟩
      · rw [dictInsert_lookup_other _ _ _ _ hpm, hpd] at hok
        simp only at hok
        injection hok with hdm2
        rw [← hdm2]
        refine bounded_insert A R _ _ _ hstep ?_
        exact ⟨hpdB.1, hpdB.2⟩

/-- The whole resolution pass preserves the schema-wide key discipline. -/
theorem resolve_all_loop_bounded (A R : String → Prop) :
    ∀ (fl : List (String × PolyFlag)) (dm dm' : List (String × ModelDescriptor)),
    resolve_all_loop dm fl = Except.ok dm' →
    (∀ n d, dictLookup dm n = some d → keys_bounded A R d) →
    (∀ n d, dictLookup dm' n = some d → keys_bounded A R d) := by
  intro fl
  induction fl with
  | nil =>
    intro dm dm' hok hdm
    cases hok
    exact hdm
  | cons mf rest ih =>
    intro dm dm' hok hdm
    simp only [resolve_all_loop] at hok
    cases hr : resolve_inheritance mf.1 mf.2 dm with
    | error e => rw [hr] at hok; cases hok
    | ok dmx =>
      rw [hr] at hok
      exact ih _ _ hok (resolve_inheritance_bounded A R mf.1 mf.2 dm dmx hr hdm)

/-- The first rendering pass yields only key-disciplined descriptors. -/
theorem render_models_loop_bounded (A R : String → Prop) (ii : Bool) :
    ∀ (models : List ModelInput) (dm : List (String × ModelDescriptor))
      (fl : List (String × PolyFlag)) (dm' : List (String × ModelDescriptor))
      (fl' : List (String × PolyFlag)),
    render_models_loop ii dm fl models = Except.ok (dm', fl') →
    (∀ mi ∈ models, meta_attr_names_in A mi.meta ∧ meta_rel_names_in R mi.meta) →
    (∀ n d, dictLookup dm n = some d → keys_bounded A R d) →
    (∀ n d, dictLookup dm' n = some d → keys_bounded A R d) := by
  intro models
  induction models with
  | nil =>
    intro dm fl dm' fl' hok hmods hdm
    cases hok
    exact hdm
  | cons mi rest ih =>
    intro dm fl dm' fl' hok hmods hdm
    simp only [render_models_loop] at hok
    cases hcr : class_render mi.meta mi.collection_name mi.bp_name mi.included mi.excluded with
    | error e => rw [hcr] at hok; cases hok
    | ok md0 =>
      rw [hcr] at hok
      simp only at hok
      cases hfl : flag_inheritance_models mi.meta with
      | error e => rw [hfl] at hok; cases hok
      | ok flag =>
        rw [hfl] at hok
        simp only at hok
        refine ih _ _ _ _ hok (fun mj hj => hmods mj (List.mem_cons_of_mem _ hj)) ?_
        have hb := class_render_keys A R mi.meta mi.collection_name mi.bp_name
            mi.included mi.excluded md0 (hmods mi (List.mem_cons_self _ _)).1
            (hmods mi (List.mem_cons_self _ _)).2 hcr
        exact bounded_insert A R dm mi.meta.name _ hdm ⟨hb.1, hb.2⟩

/-- C3 amended (the claim corrected): the renderer never enforces
disjointness between attribute and relation keys (the counterexample shows a
composed descriptor carrying the same name in both).  Disjointness holds
exactly under the input discipline the source relies on: when no field name
is used both as a scalar-side name (column, hybrid, column-proxy) and as a
relation-side name (relationship key, relation-proxy) anywhere among the
registered models, every descriptor of the composed schema, including those
touched by proxy and polymorphism resolution, has disjoint attribute and
relation key sets. -/
theorem c3_disjoint_under_name_discipline (A R : String → Prop) (ii : Bool)
    (models : List ModelInput) (dm : List (String × ModelDescriptor))
    (hAR : ∀ k, A k → R k → False)
    (hmods : ∀ mi ∈ models, meta_attr_names_in A mi.meta ∧ meta_rel_names_in R mi.meta)
    (hrun : data_model_render ii models = Except.ok dm) :
    attrs_relations_disjoint dm := by
  unfold data_model_render at hrun
  cases hfirst : render_models_loop ii [] [] models with
  | error e => rw [hfirst] at hrun; cases hrun
  | ok dmfl =>
    rw [hfirst] at hrun
    have h1 : ∀ n d, dictLookup dmfl.1 n = some d → keys_bounded A R d :=
      render_models_loop_bounded A R ii models [] [] dmfl.1 dmfl.2
        (by rw [hfirst]) hmods (by intro n d h; cases h)
    have h2 : ∀ n d, dictLookup dm n = some d → keys_bounded A R d :=
      resolve_all_loop_bounded A R dmfl.2 dmfl.1 dm hrun h1
    intro n d k hn hka hkr
    exact hAR k ((h2 n d hn).1 k hka) ((h2 n d hn).2 k hkr)

/-- C3 witness: a model drawing its attribute name from `{a}` and its
relation key from `{r}` composes into a schema with disjoint key sets. -/
theorem c3_disjoint_under_name_discipline_witness :
    attrs_relations_disjoint c3_w_dm := by
  refine c3_disjoint_under_name_discipline (fun k => k ∈ (["a"] : List String))
      (fun k => k ∈ (["r"] : List String)) false [plainInput c3_w_meta] c3_w_dm
      ?_ ?_ rfl
  · intro k h1 h2
    simp at h1 h2
    rw [h1] at h2
    exact absurd h2 (by decide)
  · intro mi hmi
    rw [List.mem_singleton] at hmi
    subst hmi
    refine ⟨⟨?_, ?_, ?_⟩, ?_, ?_⟩
    · intro c hc
      simp [plainInput, c3_w_meta, baseMeta] at hc
      simp [hc]
    · intro h hh
      simp [plainInput, c3_w_meta, baseMeta] at hh
    · intro p hp
      simp [plainInput, c3_w_meta, baseMeta] at hp
    · intro r hr
      simp [plainInput, c3_w_meta, baseMeta] at hr
      simp [hr]
    · intro p hp
      simp [plainInput, c3_w_meta, baseMeta] at hp

/-- A freshly rendered descriptor carries no polymorphic entry. -/
theorem class_render_poly_none (m : ModelMeta) (cn bp : String) (inc exc : List String)
    (b : ModelDescriptor)
    (hok : class_render m cn bp inc exc = Except.ok b) : b.polymorphic = Option.none := by
  unfold class_render at hok
  simp only at hok
  cases hfk : render_relations m (is_valid_str inc exc) with
  | error e => rw [hfk] at hok; cases hok
  | ok fk =>
    rw [hfk] at hok
    cases hhy : render_hybrid_properties m inc exc with
    | error e => rw [hhy] at hok; cases hok
    | ok hy =>
      rw [hhy] at hok
      simp only at hok
      injection hok with hb
      rw [← hb]

/-- Lookups at a name none of the remaining models carries are untouched by
the rest of the first pass. -/
theorem render_models_loop_preserve (ii : Bool) :
    ∀ (models : List ModelInput) (dm : List (String × ModelDescriptor))
      (fl : List (String × PolyFlag)) (dm' : List (String × ModelDescriptor))
      (fl' : List (String × PolyFlag)) (name : String),
    render_models_loop ii dm fl models = Except.ok (dm', fl') →
    (∀ mj ∈ models, mj.meta.name ≠ name) →
    dictLookup dm' name = dictLookup dm name ∧ dictLookup fl' name = dictLookup fl name := by
  intro models
  induction models with
  | nil =>
    intro dm fl dm' fl' name hok _
    cases hok
    exact ⟨rfl, rfl⟩
  | cons mj rest ih =>
    intro dm fl dm' fl' name hok hnames
    have hj : mj.meta.name ≠ name := hnames mj (List.mem_cons_self _ _)
    have hrest : ∀ mj' ∈ rest, mj'.meta.name ≠ name :=
      fun mj' h => hnames mj' (List.mem_cons_of_mem _ h)
    simp only [render_models_loop] at hok
    cases hcr : class_render mj.meta mj.collection_name mj.bp_name mj.included mj.excluded with
    | error e => rw [hcr] at hok; cases hok
    | ok md0 =>
      rw [hcr] at hok
      simp only at hok
      cases hfl : flag_inheritance_models mj.meta with
      | error e => rw [hfl] at hok; cases hok
      | ok flag =>
        rw [hfl] at hok
        simp only at hok
        cases flag with
        | none =>
          rcases ih _ _ _ _ name hok hrest with ⟨h1, h2⟩
          exact ⟨h1.trans (dictInsert_lookup_other _ _ _ _ (Ne.symm hj)), h2⟩
        | some f =>
          rcases ih _ _ _ _ name hok hrest with ⟨h1, h2⟩
          exact ⟨h1.trans (dictInsert_lookup_other _ _ _ _ (Ne.symm hj)),
                 h2.trans (dictInsert_lookup_other _ _ _ _ (Ne.symm hj))⟩

/-- In the first pass, a model with a unique name and no inheritance flag
ends up exactly as its solo render (methods attached), and contributes no
entry to the flag dict. -/
theorem render_models_loop_entry (ii : Bool) :
    ∀ (models : List ModelInput) (dm : List (String × ModelDescriptor))
      (fl : List (String × PolyFlag)) (dm' : List (String × ModelDescriptor))
      (fl' : List (String × PolyFlag)) (mi : ModelInput) (md0 : ModelDescriptor),
    render_models_loop ii dm fl models = Except.ok (dm', fl') →
    mi ∈ models →
    (∀ mj ∈ models, mj.meta.name = mi.meta.name → mj = mi) →
    class_render mi.meta mi.collection_name mi.bp_name mi.included mi.excluded =
      Except.ok md0 →
    flag_inheritance_models mi.meta = Except.ok Option.none →
    dictLookup dm' mi.meta.name =
      some { md0 with methods := compile_method_list ii mi.meta.methods_meta } ∧
    dictLookup fl' mi.meta.name = dictLookup fl mi.meta.name := by
  intro models
  induction models with
  | nil =>
    intro dm fl dm' fl' mi md0 _ hmem
    simp at hmem
  | cons mj rest ih =>
    intro dm fl dm' fl' mi md0 hok hmem huniq hcr hflag
    by_cases hmi : mi ∈ rest
    · have hju : ∀ mj' ∈ rest, mj'.meta.name = mi.meta.name → mj' = mi :=
        fun mj' h => huniq mj' (List.mem_cons_of_mem _ h)
      simp only [render_models_loop] at hok
      cases hcr2 : class_render mj.meta mj.collection_name mj.bp_name mj.included mj.excluded with
      | error e => rw [hcr2] at hok; cases hok
      | ok md1 =>
        rw [hcr2] at hok
        simp only at hok
        cases hfl2 : flag_inheritance_models mj.meta with
        | error e => rw [hfl2] at hok; cases hok
        | ok flag =>
          rw [hfl2] at hok
          simp only at hok
          by_cases hjname : mj.meta.name = mi.meta.name
          · have heq : mj = mi := huniq mj (List.mem_cons_self _ _) hjname
            rw [heq, hflag] at hfl2
            injection hfl2 with hfleq
            rw [← hfleq] at hok
            simp only at hok
            exact ih _ _ _ _ mi md0 hok hmi hju hcr hflag
          · cases flag with
            | none =>
              rcases ih _ _ _ _ mi md0 hok hmi hju hcr hflag with ⟨h1, h2⟩
              exact ⟨h1, h2⟩
            | some f =>
              rcases ih _ _ _ _ mi md0 hok hmi hju hcr hflag with ⟨h1, h2⟩
              exact ⟨h1, h2.trans (dictInsert_lookup_other _ _ _ _
                (fun he => hjname he.symm))⟩
    · have hhd : mj = mi := by
        rcases List.mem_cons.mp hmem with h | h
        · exact h.symm
        · exact absurd h hmi
      subst hhd
      simp only [render_models_loop] at hok
      rw [hcr] at hok
      simp only at hok
      rw [hflag] at hok
      simp only at hok
      have hrest : ∀ mj' ∈ rest, mj'.meta.name ≠ mj.meta.name := by
        intro mj' h he
        exact hmi (huniq mj' (List.mem_cons_of_mem _ h) he ▸ h)
      rcases render_models_loop_preserve ii rest _ _ _ _ mj.meta.name hok hrest with ⟨h1, h2⟩
      exact ⟨h1.trans (dictInsert_lookup_self _ _ _), h2⟩

/-- `(x.getD {}).parent` is the parent field of the optional polymorphic
dict. -/
theorem getD_parent_eq (x : Option PolyRender) :
    (x.getD { parent := Option.none, identity := Option.none,
              on_col := Option.none, identities := Option.none }).parent =
      poly_parent_field x := by
  cases x <;> rfl

/-- One resolution step leaves the attributes, relations, methods and the
child-side parent link of every other model's entry unchanged. -/
theorem resolve_inheritance_untouched (model : String) (inh : PolyFlag)
    (dm dm2 : List (String × ModelDescriptor)) (name : String) (d : ModelDescriptor)
    (hok : resolve_inheritance model inh dm = Except.ok dm2)
    (hne : model ≠ name)
    (hd : dictLookup dm name = some d) :
    ∃ d', dictLookup dm2 name = some d' ∧ d'.attributes = d.attributes ∧
      d'.relations = d.relations ∧ d'.methods = d.methods ∧
      poly_parent_field d'.polymorphic = poly_parent_field d.polymorphic := by
  unfold resolve_inheritance at hok
  cases hpd : dictLookup dm inh.parent with
  | none => rw [hpd] at hok; cases hok
  | some pd =>
    cases hcd : dictLookup dm model with
    | none => rw [hpd, hcd] at hok; cases hok
    | some cd =>
      rw [hpd, hcd] at hok
      simp only at hok
      by_cases hpm : inh.parent = model
      · rw [hpm, dictInsert_lookup_self] at hok
        simp only at hok
        injection hok with hdm2
        rw [← hdm2]
        rw [dictInsert_lookup_other _ _ _ _ (Ne.symm hne),
          dictInsert_lookup_other _ _ _ _ (Ne.symm hne), hd]
        exact ⟨d, rfl, rfl, rfl, rfl, rfl⟩
      · rw [dictInsert_lookup_other _ _ _ _ hpm, hpd] at hok
        simp only at hok
        injection hok with hdm2
        rw [← hdm2]
        by_cases hpn : inh.parent = name
        · rw [hpn, dictInsert_lookup_self]
          rw [hpn, hd] at hpd
          injection hpd with hpdd
          refine ⟨_, rfl, ?_, ?_, ?_, ?_⟩
          · rw [hpdd]
          · rw [hpdd]
          · rw [hpdd]
          · simp only [poly_parent_field, getD_parent_eq, hpdd]
        · rw [dictInsert_lookup_other _ _ _ _ (fun he => hpn he.symm),
            dictInsert_lookup_other _ _ _ _ (Ne.symm hne), hd]
          exact ⟨d, rfl, rfl, rfl, rfl, rfl⟩

/-- The resolution pass leaves every never-flagged entry with its
attributes, relations, methods and child-side parent link untouched. -/
theorem resolve_all_loop_untouched :
    ∀ (fl : List (String × PolyFlag)) (dm dm' : List (String × ModelDescriptor))
      (name : String) (attrs : List (String × String)) (rels mths : PyDict),
    resolve_all_loop dm fl = Except.ok dm' →
    (∀ mf ∈ fl, mf.1 ≠ name) →
    (∃ d, dictLookup dm name = some d ∧ d.attributes = attrs ∧ d.relations = rels ∧
       d.methods = mths ∧ poly_parent_field d.polymorphic = Option.none) →
    ∃ d, dictLookup dm' name = some d ∧ d.attributes = attrs ∧ d.relations = rels ∧
       d.methods = mths ∧ poly_parent_field d.polymorphic = Option.none := by
  intro fl
  induction fl with
  | nil =>
    intro dm dm' name attrs rels mths hok _ hex
    cases hok
    exact hex
  | cons mf rest ih =>
    intro dm dm' name attrs rels mths hok hfl hex
    simp only [resolve_all_loop] at hok
    cases hr : resolve_inheritance mf.1 mf.2 dm with
    | error e => rw [hr] at hok; cases hok
    | ok dmx =>
      rw [hr] at hok
      rcases hex with ⟨d, hd, h1, h2, h3, h4⟩
      rcases resolve_inheritance_untouched mf.1 mf.2 dm dmx name d hr
          (hfl mf (List.mem_cons_self _ _)) hd with ⟨d2, hd2, g1, g2, g3, g4⟩
      exact ih _ _ _ _ _ _ hok (fun q hq => hfl q (List.mem_cons_of_mem _ hq))
        ⟨d2, hd2, g1.trans h1, g2.trans h2, g3.trans h3, g4.trans h4⟩

/-- C10 amended (the claim corrected): for a model that declares a
polymorphic identity but has no eligible parent base, flagging silently
yields nothing (no error) and no parent merge is performed on it: with
unique model names its composed entry keeps exactly its solo-rendered
attributes and relations, and it never gains a child-side `parent` link.
(Its descriptor may still gain a parent-side polymorphic entry with `on` and
`identities` when another registered model declares it as parent — see the
counterexample, which refutes the claim's stronger "carries no polymorphic
entry".) -/
theorem c10_missing_parent_is_silently_nonpolymorphic (ii : Bool)
    (models : List ModelInput) (mi : ModelInput)
    (dm : List (String × ModelDescriptor)) (base : ModelDescriptor)
    (hmem : mi ∈ models)
    (huniq : ∀ mj ∈ models, mj.meta.name = mi.meta.name → mj = mi)
    (hid : (mi.meta.polymorphic_identity).isSome)
    (hnb : mi.meta.bases.filter (fun b => b.is_data_model) = [])
    (hcr : class_render mi.meta mi.collection_name mi.bp_name mi.included mi.excluded =
      Except.ok base)
    (hrun : data_model_render ii models = Except.ok dm) :
    flag_inheritance_models mi.meta = Except.ok Option.none ∧
    (dictLookup dm mi.meta.name).map (fun d => d.attributes) = some base.attributes ∧
    (dictLookup dm mi.meta.name).map (fun d => d.relations) = some base.relations ∧
    (dictLookup dm mi.meta.name).map (fun d => poly_parent_field d.polymorphic) =
      some Option.none := by
  have hflag : flag_inheritance_models mi.meta = Except.ok Option.none := by
    unfold flag_inheritance_models
    cases hpi : mi.meta.polymorphic_identity with
    | none => rfl
    | some idv =>
      rw [hnb]
      rfl
  refine ⟨hflag, ?_⟩
  unfold data_model_render at hrun
  cases hfirst : render_models_loop ii [] [] models with
  | error e => rw [hfirst] at hrun; cases hrun
  | ok dmfl =>
    rw [hfirst] at hrun
    obtain ⟨dm0, fl0⟩ := dmfl
    rcases render_models_loop_entry ii models [] [] dm0 fl0 mi base hfirst hmem huniq
        hcr hflag with ⟨hentry, hflentry⟩
    have hflnone : ∀ mf ∈ fl0, mf.1 ≠ mi.meta.name := by
      intro mf hmf he
      have hmemk : mi.meta.name ∈ fl0.map Prod.fst := he ▸ List.mem_map_of_mem Prod.fst hmf
      exact (dictLookup_eq_none_iff fl0 mi.meta.name).mp hflentry hmemk
    have hpolyn : poly_parent_field base.polymorphic = Option.none := by
      rw [class_render_poly_none mi.meta mi.collection_name mi.bp_name mi.included
        mi.excluded base hcr]
      rfl
    rcases resolve_all_loop_untouched fl0 dm0 dm mi.meta.name base.attributes
        base.relations (compile_method_list ii mi.meta.methods_meta) hrun hflnone
        ⟨{ base with methods := compile_method_list ii mi.meta.methods_meta },
          hentry, rfl, rfl, rfl, hpolyn⟩ with ⟨d, hd, h1, h2, h3, h4⟩
    rw [hd]
    exact ⟨by rw [Option.map_some', h1], by rw [Option.map_some', h2],
      by rw [Option.map_some', h4]⟩

/-- C10 witness: a lone model declaring an identity with no eligible parent
composes silently into its plain solo render, with no parent link. -/
theorem c10_missing_parent_is_silently_nonpolymorphic_witness :
    flag_inheritance_models c10_w_meta = Except.ok Option.none ∧
    (dictLookup c10_w_dm "Lone").map (fun d => d.attributes) = some [] ∧
    (dictLookup c10_w_dm "Lone").map (fun d => d.relations) = some [] ∧
    (dictLookup c10_w_dm "Lone").map (fun d => poly_parent_field d.polymorphic) =
      some Option.none :=
  c10_missing_parent_is_silently_nonpolymorphic false [c10_w_input] c10_w_input
    c10_w_dm c10_w_base (by decide)
    (by intro mj hmj _; rw [List.mem_singleton] at hmj; exact hmj)
    rfl rfl rfl rfl
